import Mathlib

/-!
# Verification of the actor scheduling runtime and the pynative autodiff tape

This file gives a shallow embedding of two subsystems of the repository:

* `AbstractActor` (runtime/graph_scheduler/actor/abstract_actor.cc): per-run
  message bookkeeping (`RunOpData`, `RunOpControl`, `RunBatchOpData`), the
  readiness check (`CheckRunningCondition`), erasure of per-run state
  (`EraseInput`), output-envelope initialization (`InitOutputData`) and output
  dispatch (`SendOutput`).
* The pynative gradient-tape builder (frontend/optimizer/ad/kpynative.cc):
  gradient accumulation (`PynativeAdjoint::AccumulateDout`), adjoint recording
  (`KPynativeCellImpl::BuildAdjoint`), and stop-gradient propagation
  (`AllReferencesStopped`, `PropagateStopGradient`).

Machine-level details irrelevant to the verified properties (device tensors,
logging text sinks, actor ids as strings) are represented by `Nat` identifiers;
`std::unordered_map`/`mindspore::HashMap` keyed by the run's sequential number
is represented by an association list, and maps used purely as function tables
by Lean functions.
-/

/-! ## Association-map helpers

`input_op_datas_` / `input_op_controls_` are hash maps from the run's
sequential number to a vector of received messages.  We model them as
association lists `List (Nat × List Nat)`; `mapFind` is `map.find(key)`,
`mapAppend` is `map[key].emplace_back(v)` (`operator[]` default-constructs a
missing entry), and `mapErase` is `map.erase(key)` returning the erased count.
-/

def mapFind {α : Type} (m : List (Nat × α)) (k : Nat) : Option α :=
  match m with
  | [] => none
  | p :: ps => if p.1 = k then some p.2 else mapFind ps k

def mapAppend (m : List (Nat × List Nat)) (k v : Nat) : List (Nat × List Nat) :=
  match m with
  | [] => [(k, [v])]
  | p :: ps => if p.1 = k then (p.1, p.2 ++ [v]) :: ps else p :: mapAppend ps k v

def mapErase (m : List (Nat × List Nat)) (k : Nat) : List (Nat × List Nat) × Nat :=
  match m with
  | [] => ([], 0)
  | p :: ps =>
    if p.1 = k then (ps, 1)
    else
      let r := mapErase ps k
      (p :: r.1, r.2)

/-! ## Actor state and run context -/

/-- The per-actor scheduling state of `AbstractActor`: the declared input
arities `input_datas_num_` / `input_controls_num_` and the per-run pending
message maps `input_op_datas_` / `input_op_controls_` (keyed by the run's
sequential number; each entry lists the received message payload ids in
arrival order). -/
structure ActorState where
  input_datas_num : Nat
  input_controls_num : Nat
  input_op_datas : List (Nat × List Nat)
  input_op_controls : List (Nat × List Nat)
deriving DecidableEq, Repr

/-- `OpContext`: the shared per-run context.  `sequential_num` is the run id;
`error_info` is the single first-failure slot written by
`SET_OPCONTEXT_FAIL_RET_WITH_ERROR`; `success` records
`SET_OPCONTEXT_SUCCESS_RET`. -/
structure OpContext where
  sequential_num : Nat
  error_info : Option String
  success : Bool
deriving DecidableEq, Repr

/-- Number of pending data messages held for run `run`
(the size of `input_op_datas_[run]`, `0` when the entry is absent). -/
def pendingDataCount (s : ActorState) (run : Nat) : Nat :=
  ((mapFind s.input_op_datas run).getD []).length

/-- Number of pending control messages held for run `run`. -/
def pendingControlCount (s : ActorState) (run : Nat) : Nat :=
  ((mapFind s.input_op_controls run).getD []).length

/-- The control half of `AbstractActor::CheckRunningCondition` (the second
`if` block of the source).  First component: the check passes; second
component: an "Invalid input control num" error was logged (`MS_LOG(ERROR)`). -/
def checkControlCondition (s : ActorState) (run : Nat) : Bool × Bool :=
  if s.input_controls_num ≠ 0 then
    match mapFind s.input_op_controls run with
    | none => (false, false)
    | some l =>
      if l.length < s.input_controls_num then (false, false)
      else if l.length > s.input_controls_num then (false, true)
      else (true, false)
  else (true, false)

/-- `AbstractActor::CheckRunningCondition`.  First component: the actor is
ready to fire for this run.  Second component: an "Invalid input data/control
num" error was logged (the over-arity branches).  Mirrors the source: the data
block runs first and returns `false` early; the control block follows; both
blocks are skipped when the corresponding declared arity is `0`. -/
def checkRunningCondition (s : ActorState) (run : Nat) : Bool × Bool :=
  if s.input_datas_num ≠ 0 then
    match mapFind s.input_op_datas run with
    | none => (false, false)
    | some l =>
      if l.length < s.input_datas_num then (false, false)
      else if l.length > s.input_datas_num then (false, true)
      else checkControlCondition s run
  else checkControlCondition s run

/-- `AbstractActor::RunOpData` (state part): append the message to
`input_op_datas_[context->sequential_num_]`, then evaluate
`CheckRunningCondition`.  Returns the new state, whether the actor fires
(`is_run`, upon which the source calls `Run(context)`), and whether the check
logged an over-arity error. -/
def runOpData (s : ActorState) (run msg : Nat) : ActorState × Bool × Bool :=
  let s' := { s with input_op_datas := mapAppend s.input_op_datas run msg }
  (s', checkRunningCondition s' run)

/-- `AbstractActor::RunOpControl` (state part): append to
`input_op_controls_[context->sequential_num_]`, then evaluate
`CheckRunningCondition`. -/
def runOpControl (s : ActorState) (run ctrl : Nat) : ActorState × Bool × Bool :=
  let s' := { s with input_op_controls := mapAppend s.input_op_controls run ctrl }
  (s', checkRunningCondition s' run)

/-- `AbstractActor::RunOpData` with the context threaded through.  `runImpl`
stands for the virtual `Run(context)` a subclass executes when
`CheckRunningCondition` returned `true`; when the check is `false` the source
only logs and returns, leaving the context untouched. -/
def runOpDataCtx (runImpl : ActorState → OpContext → ActorState × OpContext)
    (s : ActorState) (ctx : OpContext) (msg : Nat) :
    ActorState × OpContext × Bool × Bool :=
  let r := runOpData s ctx.sequential_num msg
  if r.2.1 then
    let r' := runImpl r.1 ctx
    (r'.1, r'.2, r.2.1, r.2.2)
  else (r.1, ctx, r.2.1, r.2.2)

/-- `AbstractActor::RunOpControl` with the context threaded through, as in
`runOpDataCtx`. -/
def runOpControlCtx (runImpl : ActorState → OpContext → ActorState × OpContext)
    (s : ActorState) (ctx : OpContext) (ctrl : Nat) :
    ActorState × OpContext × Bool × Bool :=
  let r := runOpControl s ctx.sequential_num ctrl
  if r.2.1 then
    let r2 := runImpl r.1 ctx
    (r2.1, r2.2, r.2.1, r.2.2)
  else (r.1, ctx, r.2.1, r.2.2)

/-- One delivery record: `observed` is the size of the pending-data entry for
the run at the moment `CheckRunningCondition` was evaluated, `fired` is the
check's verdict (upon which `Run` is invoked), `errLogged` whether the check
logged an over-arity error. -/
structure Delivery where
  observed : Nat
  fired : Bool
  errLogged : Bool
deriving DecidableEq, Repr

/-- Deliver a sequence of data messages for one run, one `RunOpData` call per
message, collecting one `Delivery` record per call. -/
def deliverSeq (s : ActorState) (run : Nat) : List Nat → ActorState × List Delivery
  | [] => (s, [])
  | m :: ms =>
    let r := runOpData s run m
    let rest := deliverSeq r.1 run ms
    (rest.1, ⟨pendingDataCount r.1 run, r.2.1, r.2.2⟩ :: rest.2)

/-- `AbstractActor::RunBatchOpData`: the destination handles a batched
delivery by calling `RunOpData` once per batch member, in order. -/
def runBatchOpData (s : ActorState) (run : Nat) (batch : List Nat) :
    ActorState × List Delivery :=
  deliverSeq s run batch

/-- `AbstractActor::EraseInput`.  Erases this run's pending-data entry (when
the data arity is used and the map is non-empty) and then the pending-control
entry likewise.  Returns the new state and whether an "Erase input failed"
error was logged; a failed data-erase returns early, skipping the control
erase, exactly as in the source. -/
def eraseInput (s : ActorState) (run : Nat) : ActorState × Bool :=
  if s.input_datas_num ≠ 0 ∧ s.input_op_datas ≠ [] then
    let r := mapErase s.input_op_datas run
    if r.2 = 0 then (s, true)
    else
      let s1 := { s with input_op_datas := r.1 }
      if s1.input_controls_num ≠ 0 ∧ s1.input_op_controls ≠ [] then
        let r2 := mapErase s1.input_op_controls run
        if r2.2 = 0 then ({ s1 with input_op_controls := r2.1 }, true)
        else ({ s1 with input_op_controls := r2.1 }, false)
      else (s1, false)
  else
    if s.input_controls_num ≠ 0 ∧ s.input_op_controls ≠ [] then
      let r2 := mapErase s.input_op_controls run
      if r2.2 = 0 then ({ s with input_op_controls := r2.1 }, true)
      else ({ s with input_op_controls := r2.1 }, false)
    else (s, false)

/-! ## Output arrows, envelope initialization and output dispatch

Destination actor names are modelled by `Nat` ids.  The stack-actor name
suffix test (`to_op_name.find(kStackActorNameSuffix) != npos`) is modelled by
a predicate `isStack` on the destination id; the per-destination
`batch_output_data_arrows_` table (populated by the graph scheduler outside
this translation unit) enters as its size function `batchArrowsSize`.
-/

/-- The envelope flag constants `kOutputDataFalgInit`, `kOutputDataFalgToStack`,
`kOutputDataFalgBatch`, `kOutputDataFalgLastBatch` (only equality on them is
used by the source). -/
inductive OutputDataFlag where
  | init
  | toStack
  | batch
  | lastBatch
deriving DecidableEq, Repr

/-- A static output data arrow `(to_op_id_, to_input_index_, flag_)`. -/
structure DataArrow where
  to_op_id : Nat
  to_input_index : Nat
  flag : OutputDataFlag
deriving DecidableEq, Repr

/-- One entry of `output_data_`: the cached `OpData` envelope (identified by
the index of the arrow it was created for) together with the output data flag
computed by `InitOutputData`. -/
structure OutputDataItem where
  to_op_id : Nat
  to_input_index : Nat
  arrow_idx : Nat
  flag : OutputDataFlag
deriving DecidableEq, Repr

/-- Loop state of `AbstractActor::InitOutputData`: the local `batch_op_count`
hash map, the member `batch_output_data_` (destination id ↦ envelope ids, in
insertion order) and the member `output_data_` built so far. -/
structure InitAcc where
  batch_op_count : Nat → Nat
  batch_output_data : Nat → List Nat
  output_data : List OutputDataItem

/-- One iteration of the `InitOutputData` loop on the enumerated arrow
`(i, arrow)`: compute `is_to_stack`, reject batch-to-stack with
`MS_LOG(EXCEPTION)`, record batch envelopes in `batch_output_data_`, bump
`batch_op_count` and promote the flag to `LastBatch` when the count reaches
`batch_output_data_arrows_[name].size()`, then append to `output_data_`. -/
def initStep (isStack : Nat → Bool) (batchArrowsSize : Nat → Nat)
    (acc : InitAcc) (ia : Nat × DataArrow) : Except String InitAcc :=
  if ia.2.flag = OutputDataFlag.batch then
    if isStack ia.2.to_op_id then
      .error "Not support the batch output data to stack actor."
    else
      .ok ⟨fun d => if d = ia.2.to_op_id then acc.batch_op_count d + 1
                    else acc.batch_op_count d,
           fun d => if d = ia.2.to_op_id then acc.batch_output_data d ++ [ia.1]
                    else acc.batch_output_data d,
           acc.output_data ++ [⟨ia.2.to_op_id, ia.2.to_input_index, ia.1,
             if acc.batch_op_count ia.2.to_op_id + 1 = batchArrowsSize ia.2.to_op_id
             then OutputDataFlag.lastBatch else OutputDataFlag.batch⟩]⟩
  else
    .ok ⟨acc.batch_op_count, acc.batch_output_data,
         acc.output_data ++ [⟨ia.2.to_op_id, ia.2.to_input_index, ia.1,
           if isStack ia.2.to_op_id then OutputDataFlag.toStack
           else OutputDataFlag.init⟩]⟩

/-- The `InitOutputData` loop over the enumerated arrows. -/
def initLoop (isStack : Nat → Bool) (batchArrowsSize : Nat → Nat)
    (acc : InitAcc) : List (Nat × DataArrow) → Except String InitAcc
  | [] => .ok acc
  | ia :: ias =>
    match initStep isStack batchArrowsSize acc ia with
    | .error e => .error e
    | .ok acc' => initLoop isStack batchArrowsSize acc' ias

/-- `AbstractActor::InitOutputData`: build the cached envelopes with their
output data flags and the per-destination `batch_output_data_` lists, from the
ordered `output_data_arrows_`. -/
def initOutputData (isStack : Nat → Bool) (batchArrowsSize : Nat → Nat)
    (arrows : List DataArrow) : Except String InitAcc :=
  initLoop isStack batchArrowsSize ⟨fun _ => 0, fun _ => [], []⟩ arrows.enum

/-- The events `SendOutput` emits through `ActorDispatcher::Send` (plus the
recorder-info step), in dispatch order. -/
inductive SendEvent where
  | sendData (dst : Nat) (envelope : Nat)
  | sendBatch (dst : Nat) (envelopes : List Nat)
  | sendControl (dst : Nat)
  | recorderInfo
deriving DecidableEq, Repr

def SendEvent.isData : SendEvent → Bool
  | .sendData _ _ => true
  | .sendBatch _ _ => true
  | _ => false

def SendEvent.isControl : SendEvent → Bool
  | .sendControl _ => true
  | _ => false

/-- Ordinal of `KernelTransformType::kSwitchActor`.  The numeric value is not
fixed by this translation unit; only comparisons `type_ < kSwitchActor`
("not a control-flow actor type") occur, so any fixed value serves. -/
def kSwitchActor : Nat := 100

/-- The sender-side fields of `AbstractActor` that `SendOutput` reads:
`output_data_arrows_` (its length is what the guards compare),
`output_data_nodes_` (length), the cached `output_data_` with flags, the
per-destination `batch_output_data_`, `output_control_arrows_`, and `type_`. -/
structure SenderActor where
  output_data_arrows_len : Nat
  output_data_nodes_len : Nat
  output_data : List OutputDataItem
  batch_output_data : Nat → List Nat
  output_control_arrows : List Nat
  type : Nat

/-- The events the `SendOutput` data loop dispatches for one cached envelope,
by its flag: a `LastBatch` envelope triggers one `RunBatchOpData` send
carrying the whole per-destination batch list; a `ToStack` envelope is sent
as a freshly allocated copy via `RunOpData`; a `Batch` envelope is not sent
(it only waits in the batch list); an ordinary envelope is sent via
`RunOpData`. -/
def dataSendEvents (bmap : Nat → List Nat) (it : OutputDataItem) : List SendEvent :=
  match it.flag with
  | OutputDataFlag.lastBatch => [SendEvent.sendBatch it.to_op_id (bmap it.to_op_id)]
  | OutputDataFlag.toStack => [SendEvent.sendData it.to_op_id it.arrow_idx]
  | OutputDataFlag.batch => []
  | OutputDataFlag.init => [SendEvent.sendData it.to_op_id it.arrow_idx]

/-- `AbstractActor::SendOutput`: returns the dispatched events in order and
the updated context.  Mirrors the source: (0) the arrow/data size guard fails
the context and returns; (1) the data loop sends one `RunBatchOpData` per
`LastBatch` envelope (carrying the whole per-destination batch list), a fresh
envelope per `ToStack`, nothing for `Batch`, and a plain `RunOpData` send
otherwise; (2) all control arrows are sent; (3) recorder info; (4) when both
arrow lists are empty and `type_ < kSwitchActor`, the context is marked
successful. -/
def sendOutput (a : SenderActor) (ctx : OpContext) : List SendEvent × OpContext :=
  if ((a.output_data_arrows_len ≠ a.output_data.length ∨
       a.output_data_arrows_len ≠ a.output_data_nodes_len) ∧ a.type < kSwitchActor) then
    ([], { ctx with
           error_info := some "The size of output data arrows is not equal to the output data." })
  else
    let dataEvents := a.output_data.foldl
      (fun es it => es ++ dataSendEvents a.batch_output_data it) []
    let controlEvents := a.output_control_arrows.map SendEvent.sendControl
    let events := dataEvents ++ controlEvents ++ [SendEvent.recorderInfo]
    if a.output_data_arrows_len = 0 ∧ a.output_control_arrows.length = 0 ∧
       a.type < kSwitchActor then
      (events, { ctx with success := true })
    else (events, ctx)

/-! ## Pynative gradient tape (frontend/optimizer/ad/kpynative.cc)

AnfNode pointers are modelled by `Nat` ids; values (`ValuePtr`) by `Nat` ids;
bprop func-graphs by optional `Nat` ids.  The tape expressions built through
`tape_->NewCNode` for gradient accumulation are modelled by `DoutExpr`: a
contribution node (`din`, a `tuple_getitem` on a bprop application, or the
sens parameter) is a `leaf`, and a `hyper_add` cnode is `add`.
-/

/-- The accumulated-gradient expression held in `PynativeAdjoint::dout_`:
either a single contribution node or a `hyper_add` cnode over two
subexpressions. -/
inductive DoutExpr where
  | leaf (id : Nat)
  | add (a b : DoutExpr)
deriving DecidableEq, Repr

/-- `PynativeAdjoint::AccumulateDout(dout_factor)` acting on the `dout_`
field: if `dout_` is already set, replace it by the `hyper_add` cnode
`add(dout_, dout_factor)`; otherwise set it to the factor. -/
def accumulateDout (dout : Option DoutExpr) (dout_factor : DoutExpr) : Option DoutExpr :=
  match dout with
  | some d => some (DoutExpr.add d dout_factor)
  | none => some dout_factor

/-- Repeated `AccumulateDout` calls, one per incoming contribution, in call
order. -/
def accumulateAll (dout : Option DoutExpr) (factors : List DoutExpr) : Option DoutExpr :=
  factors.foldl accumulateDout dout

/-- Denotation of a `dout` expression in the integers, given a value for each
contribution node: `hyper_add` denotes addition. -/
def doutVal (v : Nat → ℤ) : DoutExpr → ℤ
  | DoutExpr.leaf n => v n
  | DoutExpr.add a b => doutVal v a + doutVal v b

/-- The multiset of contribution nodes occurring in a `dout` expression. -/
def doutLeaves : DoutExpr → Multiset Nat
  | DoutExpr.leaf n => {n}
  | DoutExpr.add a b => doutLeaves a + doutLeaves b

/-- `PynativeAdjoint`: `op_args_` (ids of the forward op's argument values),
`out_` (id of the forward output value), `bprop_fg_` (optional user-supplied
backward func-graph id), `users_` (ids of recorded cnodes consuming this
node), and the accumulated `dout_`. -/
structure PynativeAdjoint where
  op_args : List Nat
  out : Nat
  bprop_fg : Option Nat
  users : List Nat
  dout : Option DoutExpr
deriving DecidableEq, Repr

/-- The `OrderedMap<AnfNodePtr, PynativeAdjointPtr> anfnode_to_adjoin_`:
an insertion-ordered association list. -/
abbrev AdjMap : Type := List (Nat × PynativeAdjoint)

/-- `adjoint->users().push_back(cnode)`: append `cid` to the users list of the
entry for `node` (the first entry with that key; keys are unique in an
`OrderedMap`). -/
def addUser (m : AdjMap) (node cid : Nat) : AdjMap :=
  List.map (fun p => if p.1 = node then (p.1, { p.2 with users := p.2.users ++ [cid] }) else p) m

/-- The leaf adjoint created on the fly for a not-yet-seen non-CNode argument:
`PynativeAdjoint(tape, ValuePtrList{}, op_args[i - 1], nullptr)` followed by
`users().push_back(cnode)`. -/
def newLeafAdjoint (outv cid : Nat) : PynativeAdjoint :=
  ⟨[], outv, none, [cid], none⟩

/-- Processing of one argument in the `BuildAdjoint` loop.  `arg` is the pair
(argument node id, corresponding forward value `op_args[i - 1]`).  If the
argument already has an adjoint, the forward cnode is pushed onto its users;
otherwise a leaf adjoint is created unless the argument is itself a CNode, in
which case the source raises `MS_LOG(EXCEPTION)`. -/
def processArg (isCNode : Nat → Bool) (cid : Nat) (m : AdjMap) (arg : Nat × Nat) :
    Except String AdjMap :=
  match mapFind m arg.1 with
  | some _ => .ok (addUser m arg.1 cid)
  | none =>
    if isCNode arg.1 then .error "Cannot find adjoint for anfnode"
    else .ok (addUser (m ++ [(arg.1, ⟨[], arg.2, none, [], none⟩)]) arg.1 cid)

/-- The `BuildAdjoint` argument loop (`for i in 1 .. cnode->inputs().size()`),
processed left to right. -/
def processArgs (isCNode : Nat → Bool) (cid : Nat) (m : AdjMap) :
    List (Nat × Nat) → Except String AdjMap
  | [] => .ok m
  | a :: as =>
    match processArg isCNode cid m a with
    | .error e => .error e
    | .ok m' => processArgs isCNode cid m' as

/-- A forward cnode: its id and its input list (`inputs()[0]` is the
primitive/func-graph; the arguments start at index 1). -/
structure CNodeM where
  id : Nat
  inputs : List Nat
deriving DecidableEq, Repr

/-- The argument pairs the `BuildAdjoint` loop visits: for each
`i ∈ [1, inputs.size())` the node `inputs[i]` together with the cached value
`op_args[i - 1]`. -/
def argPairs (c : CNodeM) (op_args : List Nat) : List (Nat × Nat) :=
  (List.range (c.inputs.length - 1)).map
    (fun i => ((c.inputs.drop 1).getD i 0, op_args.getD i 0))

/-- The tape-builder state of `KPynativeCellImpl` relevant to recording:
the adjoint map, `last_node_`, and `need_propagate_stop_gradient_`. -/
structure KPynativeCellState where
  anfnode_to_adjoin : AdjMap
  last_node : Option Nat
  need_propagate_stop_gradient : Bool
deriving DecidableEq

/-- `KPynativeCellImpl::BuildAdjoint`.  Rejects a cnode that already has an
adjoint ("CNode should be unique"); otherwise books `last_node_`, inserts the
new adjoint (an `OrderedMap` insert appends the fresh key at the end), and
processes the arguments.  `MS_LOG(EXCEPTION)` aborts the program, so the
post-throw state is unobservable and error paths simply return the message. -/
def buildAdjoint (isCNode : Nat → Bool) (s : KPynativeCellState) (c : CNodeM)
    (op_args : List Nat) (outv : Nat) (bprop : Option Nat) :
    Except String KPynativeCellState :=
  match mapFind s.anfnode_to_adjoin c.id with
  | some _ => .error "CNode should be unique"
  | none =>
    match processArgs isCNode c.id
        (s.anfnode_to_adjoin ++ [(c.id, ⟨op_args, outv, bprop, [], none⟩)])
        (argPairs c op_args) with
    | .error e => .error e
    | .ok m2 => .ok ⟨m2, some c.id, s.need_propagate_stop_gradient⟩

/-! ## Stop-gradient propagation -/

/-- One entry of `anfnode_to_adjoin_` as seen by `PropagateStopGradient`: the
node id and the users list of its adjoint.  Entries are kept in creation
(insertion) order, as in the `OrderedMap`. -/
structure StopEntry where
  id : Nat
  users : List Nat
deriving DecidableEq, Repr

/-- `KPynativeCellImpl::AllReferencesStopped` on the users list of the node's
adjoint (the source first looks the node up in `anfnode_to_adjoin_`, which is
where the entry comes from): `false` if the users list is empty, otherwise
whether every user is a CNode with its `stop_gradient` flag set. -/
def allReferencesStopped (isCNode : Nat → Bool) (stop : Nat → Bool)
    (users : List Nat) : Bool :=
  if users.isEmpty then false
  else users.all (fun u => isCNode u && stop u)

/-- The body of the `PropagateStopGradient` loop for one entry: a CNode whose
`stop_gradient` flag is not yet set becomes stopped when it is a
`stop_gradient`/`update_state` primitive cnode (`isMarker`) or when
`AllReferencesStopped` holds. -/
def visitNode (isCNode isMarker : Nat → Bool) (stop : Nat → Bool) (e : StopEntry) :
    Nat → Bool :=
  if isCNode e.id ∧ stop e.id = false ∧
     (isMarker e.id ∨ allReferencesStopped isCNode stop e.users) then
    fun x => if x = e.id then true else stop x
  else stop

/-- Process a list of entries in the given order, threading the
`stop_gradient` flags. -/
def processEntries (isCNode isMarker : Nat → Bool) (stop : Nat → Bool) :
    List StopEntry → (Nat → Bool)
  | [] => stop
  | e :: es => processEntries isCNode isMarker (visitNode isCNode isMarker stop e) es

/-- `KPynativeCellImpl::PropagateStopGradient`: when
`need_propagate_stop_gradient_` is set, walk `anfnode_to_adjoin_` in reverse
creation order (`rbegin()`..`rend()`), updating each node's `stop_gradient`
flag in place. -/
def propagateStopGradient (need : Bool) (isCNode isMarker : Nat → Bool)
    (entries : List StopEntry) (stop : Nat → Bool) : Nat → Bool :=
  if need then processEntries isCNode isMarker stop entries.reverse else stop

/-! ## Specification helpers for `InitOutputData`

These definitions name the quantities the `InitOutputData` invariants are
stated with: the number of batch arrows to a destination among the
(enumerated) output arrows, the list of their indices, and a pure
reformulation of the loop's `output_data_` output. -/

/-- Number of batch-flagged arrows to destination `d` among the enumerated
arrows `ps`. -/
def countBatchTo (d : Nat) (ps : List (Nat × DataArrow)) : Nat :=
  List.countP
    (fun p => decide (p.2.flag = OutputDataFlag.batch ∧ p.2.to_op_id = d)) ps

/-- The indices of the batch-flagged arrows to destination `d`, in arrow
order. -/
def batchIdxsTo (d : Nat) (ps : List (Nat × DataArrow)) : List Nat :=
  (ps.filter
    (fun p => decide (p.2.flag = OutputDataFlag.batch ∧ p.2.to_op_id = d))).map
    Prod.fst

/-- The `output_data_` entries the `InitOutputData` loop produces from the
enumerated arrows `ps`, starting from the running per-destination batch
counter `cnt` (a pure restatement of the loop, proved equal to it in
`initLoop_ok`). -/
def itemsFrom (isStack : Nat → Bool) (bas : Nat → Nat) :
    (Nat → Nat) → List (Nat × DataArrow) → List OutputDataItem
  | _, [] => []
  | cnt, p :: ps =>
    if p.2.flag = OutputDataFlag.batch then
      ⟨p.2.to_op_id, p.2.to_input_index, p.1,
        if cnt p.2.to_op_id + 1 = bas p.2.to_op_id then OutputDataFlag.lastBatch
        else OutputDataFlag.batch⟩ ::
      itemsFrom isStack bas
        (fun d => if d = p.2.to_op_id then cnt d + 1 else cnt d) ps
    else
      ⟨p.2.to_op_id, p.2.to_input_index, p.1,
        if isStack p.2.to_op_id then OutputDataFlag.toStack
        else OutputDataFlag.init⟩ ::
      itemsFrom isStack bas cnt ps

/-! ## Concrete instances used by witnesses and counterexamples -/

/-- A destination actor expecting exactly 2 data messages and no controls,
with no pending state. -/
def twoDataActor : ActorState := ⟨2, 0, [], []⟩

/-- An actor expecting 1 data message and no controls. -/
def oneDataActor : ActorState := ⟨1, 0, [], []⟩

/-- A fresh context for run 7. -/
def ctx7 : OpContext := ⟨7, none, false⟩

/-- A `Run` implementation that records a failure in the context — used to
show that an over-arity delivery never even invokes `Run`. -/
def failingRunImpl : ActorState → OpContext → ActorState × OpContext :=
  fun s c => (s, { c with error_info := some "failure written by Run" })

/-- An actor that expects 2 data and 1 control message per run and already
holds one data and one control message for run 3. -/
def busyActor : ActorState := ⟨2, 1, [(3, [9])], [(3, [4])]⟩

/-- An actor with data arity 1 that already holds one data message for
run 7 — the next data delivery for run 7 violates the declared arity. -/
def overloadedActor : ActorState := ⟨1, 0, [(7, [10])], []⟩

/-- A sender with a two-envelope batch to destination 5: envelope 0 carries
the `Batch` flag, envelope 1 the `LastBatch` flag, and the per-destination
batch list holds both. -/
def batchSender : SenderActor :=
  ⟨2, 2, [⟨5, 0, 0, OutputDataFlag.batch⟩, ⟨5, 1, 1, OutputDataFlag.lastBatch⟩],
   fun d => if d = 5 then [0, 1] else [], [], 0⟩

/-- Output arrows for the C10 witness: two batch arrows to destination 5
(indices 0 and 2) with an ordinary arrow to destination 6 in between. -/
def c10Arrows : List DataArrow :=
  [⟨5, 0, OutputDataFlag.batch⟩, ⟨6, 0, OutputDataFlag.init⟩,
   ⟨5, 1, OutputDataFlag.batch⟩]

/-- Tape for the C7 witness: node 1 is used by node 2 only. -/
def stopEntryOne : StopEntry := ⟨1, [2]⟩

/-- Tape for the C7 witness: node 2 (a `stop_gradient` marker) has no users. -/
def stopEntryTwo : StopEntry := ⟨2, []⟩

/-! ## Theorems -/

/-! ### C2: gradient accumulation -/

theorem accumulateAll_some (fs : List DoutExpr) (d : DoutExpr) :
    accumulateAll (some d) fs = some (fs.foldl DoutExpr.add d) := by
  induction fs generalizing d with
  | nil => rfl
  | cons f fs ih => simpa [accumulateAll, accumulateDout, List.foldl] using ih (DoutExpr.add d f)

theorem doutLeaves_foldl (l : List Nat) (d : DoutExpr) :
    doutLeaves (List.foldl DoutExpr.add d (l.map DoutExpr.leaf)) =
      doutLeaves d + (l : Multiset Nat) := by
  induction l generalizing d with
  | nil => simp
  | cons a as ih =>
    simp only [List.map_cons, List.foldl_cons]
    rw [ih (DoutExpr.add d (DoutExpr.leaf a))]
    simp [doutLeaves, add_assoc]

theorem doutVal_eq_sum_leaves (v : Nat → ℤ) (e : DoutExpr) :
    doutVal v e = ((doutLeaves e).map v).sum := by
  induction e with
  | leaf n => simp [doutVal, doutLeaves]
  | add a b iha ihb => simp [doutVal, doutLeaves, iha, ihb]

/-- **C2**: for every adjoint node receiving several gradient contributions,
the accumulated `dout` built by repeated `AccumulateDout` calls contains every
contribution exactly once (none is overwritten), its value is the sum of all
contributions, and the value does not depend on the call order: any
permutation of the contribution list yields the same accumulated value. -/
theorem C2_gradient_accumulation_commutative (l lp : List Nat) (hne : l ≠ [])
    (hperm : l.Perm lp) (v : Nat → ℤ) :
    ∃ e ep, accumulateAll none (l.map DoutExpr.leaf) = some e ∧
      accumulateAll none (lp.map DoutExpr.leaf) = some ep ∧
      doutLeaves e = (l : Multiset Nat) ∧ doutLeaves ep = (l : Multiset Nat) ∧
      doutVal v e = (l.map v).sum ∧ doutVal v ep = doutVal v e := by
  have build : ∀ (m : List Nat), m ≠ [] →
      ∃ e, accumulateAll none (m.map DoutExpr.leaf) = some e ∧
        doutLeaves e = (m : Multiset Nat) := by
    intro m hm
    match m with
    | [] => exact absurd rfl hm
    | a :: as =>
      refine ⟨List.foldl DoutExpr.add (DoutExpr.leaf a) (as.map DoutExpr.leaf), ?_, ?_⟩
      · simpa [accumulateAll, accumulateDout, List.foldl] using accumulateAll_some (as.map DoutExpr.leaf) (DoutExpr.leaf a)
      · rw [doutLeaves_foldl]
        simp [doutLeaves]
  obtain ⟨e, he, hle⟩ := build l hne
  have hnep : lp ≠ [] := by
    intro h
    subst h
    exact hne hperm.eq_nil
  obtain ⟨ep, hep, hlep⟩ := build lp hnep
  have hcoe : (lp : Multiset Nat) = (l : Multiset Nat) := Multiset.coe_eq_coe.mpr hperm.symm
  refine ⟨e, ep, he, hep, hle, by rw [hlep, hcoe], ?_, ?_⟩
  · rw [doutVal_eq_sum_leaves, hle]
    simp
  · rw [doutVal_eq_sum_leaves, doutVal_eq_sum_leaves, hlep, hcoe, hle]

/-- Witness for C2 at the contribution lists `[1, 2, 3]` and `[3, 1, 2]`. -/
theorem C2_gradient_accumulation_commutative_witness :
    ∃ e ep, accumulateAll none ([1, 2, 3].map DoutExpr.leaf) = some e ∧
      accumulateAll none ([3, 1, 2].map DoutExpr.leaf) = some ep ∧
      doutLeaves e = ([1, 2, 3] : List Nat) ∧
      doutLeaves ep = ([1, 2, 3] : List Nat) ∧
      doutVal (fun n => (n : ℤ)) e = (([1, 2, 3] : List Nat).map (fun n => (n : ℤ))).sum ∧
      doutVal (fun n => (n : ℤ)) ep = doutVal (fun n => (n : ℤ)) e :=
  C2_gradient_accumulation_commutative [1, 2, 3] [3, 1, 2] (by decide) (by decide)
    (fun n => (n : ℤ))

/-! ### C7: stop-gradient propagation -/

theorem visitNode_ne (isC isM stop : Nat → Bool) (e : StopEntry) (x : Nat)
    (hx : x ≠ e.id) : visitNode isC isM stop e x = stop x := by
  unfold visitNode
  split
  · simp [hx]
  · rfl

theorem processEntries_cons (isC isM stop : Nat → Bool) (e : StopEntry)
    (es : List StopEntry) :
    processEntries isC isM stop (e :: es) =
      processEntries isC isM (visitNode isC isM stop e) es := rfl

theorem processEntries_not_mem (isC isM : Nat → Bool) (es : List StopEntry)
    (stop : Nat → Bool) (x : Nat) (hx : ∀ e ∈ es, x ≠ e.id) :
    processEntries isC isM stop es x = stop x := by
  induction es generalizing stop with
  | nil => rfl
  | cons e es ih =>
    rw [processEntries_cons, ih _ (fun q hq => hx q (List.mem_cons_of_mem _ hq)),
      visitNode_ne _ _ _ _ _ (hx e (List.mem_cons_self _ _))]

theorem processEntries_append (isC isM : Nat → Bool) (l1 l2 : List StopEntry)
    (stop : Nat → Bool) :
    processEntries isC isM stop (l1 ++ l2) =
      processEntries isC isM (processEntries isC isM stop l1) l2 := by
  induction l1 generalizing stop with
  | nil => rfl
  | cons e es ih => rw [List.cons_append, processEntries_cons, processEntries_cons, ih]

/-- **C7**: during stop-gradient propagation (run once, over the entries in
reverse creation order), a node `e` that is a cnode, is not already stopped
and is not itself a `stop_gradient`/`update_state` marker ends the pass
stopped if and only if it has at least one recorded user and every one of its
users is already stopped at the moment `e` is visited (i.e. after the pass
has processed all nodes recorded after `e`).  In particular a node with zero
users is never marked stopped by inference alone. -/
theorem C7_stop_gradient_closure (isC isM stop0 : Nat → Bool)
    (pre post : List StopEntry) (e : StopEntry)
    (hnodup : ((pre ++ e :: post).map StopEntry.id).Nodup)
    (hC : isC e.id = true) (hstop : stop0 e.id = false) (hM : isM e.id = false)
    (husers : ∀ u ∈ e.users, isC u = true) :
    (propagateStopGradient true isC isM (pre ++ e :: post) stop0 e.id = true ↔
      (e.users ≠ [] ∧
        ∀ u ∈ e.users, processEntries isC isM stop0 post.reverse u = true)) := by
  rw [List.map_append, List.map_cons] at hnodup
  obtain ⟨hn1, hn2, hdisj⟩ := List.nodup_append.mp hnodup
  have hpre : ∀ q ∈ pre, e.id ≠ q.id := by
    intro q hq h
    exact hdisj (h ▸ List.mem_map_of_mem StopEntry.id hq) (List.mem_cons_self _ _)
  have hpost : ∀ q ∈ post, e.id ≠ q.id := by
    intro q hq h
    have h2 := (List.nodup_cons.mp hn2).1
    exact h2 (h ▸ List.mem_map_of_mem StopEntry.id hq)
  set sAt := processEntries isC isM stop0 post.reverse with hsAt
  have hrev : (pre ++ e :: post).reverse = post.reverse ++ e :: pre.reverse := by
    simp
  have hfin : propagateStopGradient true isC isM (pre ++ e :: post) stop0 e.id =
      visitNode isC isM sAt e e.id := by
    rw [propagateStopGradient, if_pos rfl, hrev, processEntries_append,
      processEntries_cons]
    exact processEntries_not_mem _ _ _ _ _
      (fun q hq => hpre q (List.mem_reverse.mp hq))
  have hsAte : sAt e.id = false := by
    rw [hsAt, processEntries_not_mem _ _ _ _ _
      (fun q hq => hpost q (List.mem_reverse.mp hq))]
    exact hstop
  have hv : visitNode isC isM sAt e e.id = allReferencesStopped isC sAt e.users := by
    unfold visitNode
    cases hall : allReferencesStopped isC sAt e.users with
    | true =>
      rw [if_pos ⟨hC, hsAte, Or.inr rfl⟩]
      simp
    | false =>
      rw [if_neg ?hcond]
      case hcond =>
        rintro ⟨-, -, h1 | h2⟩
        · rw [hM] at h1
          cases h1
        · cases h2
      exact hsAte
  rw [hfin, hv]
  unfold allReferencesStopped
  by_cases hemp : e.users = []
  · simp [hemp]
  · rw [if_neg (by simp [hemp])]
    constructor
    · intro hall
      refine ⟨hemp, fun u hu => ?_⟩
      have h3 := List.all_eq_true.mp hall u hu
      simp only [Bool.and_eq_true] at h3
      exact h3.2
    · rintro ⟨-, h2⟩
      refine List.all_eq_true.mpr (fun u hu => ?_)
      simp only [Bool.and_eq_true]
      exact ⟨husers u hu, h2 u hu⟩

/-- Witness for C7: node 1 (used only by the marker node 2) becomes stopped
by the propagation pass. -/
theorem C7_stop_gradient_closure_witness :
    propagateStopGradient true (fun n => n == 1 || n == 2) (fun n => n == 2)
        ([] ++ stopEntryOne :: [stopEntryTwo]) (fun _ => false) stopEntryOne.id = true ↔
      (stopEntryOne.users ≠ [] ∧
        ∀ u ∈ stopEntryOne.users,
          processEntries (fun n => n == 1 || n == 2) (fun n => n == 2)
            (fun _ => false) [stopEntryTwo].reverse u = true) :=
  C7_stop_gradient_closure (fun n => n == 1 || n == 2) (fun n => n == 2)
    (fun _ => false) [] [stopEntryTwo] stopEntryOne (by decide) (by decide) rfl
    (by decide) (by decide)

/-! ### C8/C9: adjoint recording -/

theorem mapFind_append {α : Type} (m m2 : List (Nat × α)) (k : Nat) :
    mapFind (m ++ m2) k =
      match mapFind m k with
      | some v => some v
      | none => mapFind m2 k := by
  induction m with
  | nil => rfl
  | cons p ps ih =>
    by_cases h : p.1 = k
    · simp [mapFind, h]
    · simp [mapFind, h, ih]

theorem mapFind_eq_none {α : Type} (m : List (Nat × α)) (k : Nat) :
    mapFind m k = none ↔ k ∉ m.map Prod.fst := by
  induction m with
  | nil => simp [mapFind]
  | cons p ps ih =>
    by_cases h : p.1 = k
    · simp [mapFind, h]
    · simp only [mapFind, if_neg h, List.map_cons, List.mem_cons]
      rw [ih]
      constructor
      · rintro hn (h1 | h2)
        · exact h h1.symm
        · exact hn h2
      · exact fun hn hm => hn (Or.inr hm)

theorem addUser_keys (m : AdjMap) (node cid : Nat) :
    (addUser m node cid).map Prod.fst = m.map Prod.fst := by
  induction m with
  | nil => rfl
  | cons p ps ih =>
    by_cases h : p.1 = node
    · simp [addUser, h] at ih ⊢
      exact ih
    · simp [addUser, h] at ih ⊢
      exact ih

theorem mapFind_addUser_self (m : AdjMap) (node cid : Nat) (adj : PynativeAdjoint)
    (h : mapFind m node = some adj) :
    mapFind (addUser m node cid) node = some { adj with users := adj.users ++ [cid] } := by
  induction m with
  | nil => simp [mapFind] at h
  | cons p ps ih =>
    by_cases hp : p.1 = node
    · simp [mapFind, hp] at h
      simp [addUser, mapFind, hp, h]
    · simp [mapFind, hp] at h
      simp [addUser, mapFind, hp] at ih ⊢
      exact ih h

theorem processArgs_preserves (isC : Nat → Bool) (cid : Nat) :
    ∀ (args : List (Nat × Nat)) (m m2 : AdjMap),
      processArgs isC cid m args = .ok m2 →
      ((m.map Prod.fst).Nodup → (m2.map Prod.fst).Nodup) ∧
      (∀ k, k ∈ m.map Prod.fst → k ∈ m2.map Prod.fst) := by
  intro args
  induction args with
  | nil =>
    intro m m2 h
    simp [processArgs] at h
    subst h
    exact ⟨id, fun _ hk => hk⟩
  | cons a as ih =>
    intro m m2 h
    rw [processArgs] at h
    cases hpa : processArg isC cid m a with
    | error e => rw [hpa] at h; cases h
    | ok m1 =>
      rw [hpa] at h
      have ihm := ih m1 m2 h
      unfold processArg at hpa
      cases hf : mapFind m a.1 with
      | some adj =>
        rw [hf] at hpa
        have hm1 : m1 = addUser m a.1 cid := by
          cases hpa
          rfl
        subst hm1
        refine ⟨fun hn => ihm.1 (by rwa [addUser_keys]), fun k hk => ?_⟩
        exact ihm.2 k (by rwa [addUser_keys])
      | none =>
        rw [hf] at hpa
        by_cases hC : isC a.1 = true
        · rw [if_pos hC] at hpa
          cases hpa
        · rw [if_neg hC] at hpa
          have hm1 : m1 = addUser (m ++ [(a.1, ⟨[], a.2, none, [], none⟩)]) a.1 cid := by
            cases hpa
            rfl
          subst hm1
          have hkeys : (addUser (m ++ [(a.1, ⟨[], a.2, none, [], none⟩)]) a.1 cid).map Prod.fst =
              m.map Prod.fst ++ [a.1] := by
            rw [addUser_keys, List.map_append]
            rfl
          constructor
          · intro hn
            apply ihm.1
            rw [hkeys]
            have hnot := (mapFind_eq_none m a.1).mp hf
            simp [List.nodup_append, hn, hnot]
          · intro k hk
            exact ihm.2 k (by rw [hkeys]; exact List.mem_append_left _ hk)

/-- **C8**: recording the same forward cnode a second time on one tape fails
with the "CNode should be unique" error; a successful recording keeps the
adjoint-map keys duplicate-free with exactly one adjoint entry for the new
cnode, and sets `last_node_` to the just-recorded cnode. -/
theorem C8_tape_single_recording (isC : Nat → Bool) (s : KPynativeCellState)
    (c : CNodeM) (op_args : List Nat) (outv : Nat) (bprop : Option Nat)
    (hnodup : (s.anfnode_to_adjoin.map Prod.fst).Nodup) :
    ((mapFind s.anfnode_to_adjoin c.id).isSome = true →
      buildAdjoint isC s c op_args outv bprop = .error "CNode should be unique") ∧
    (∀ s2, buildAdjoint isC s c op_args outv bprop = .ok s2 →
      s2.last_node = some c.id ∧
      (s2.anfnode_to_adjoin.map Prod.fst).Nodup ∧
      (s2.anfnode_to_adjoin.map Prod.fst).count c.id = 1) := by
  constructor
  · intro hsome
    unfold buildAdjoint
    cases hf : mapFind s.anfnode_to_adjoin c.id with
    | none => rw [hf] at hsome; cases hsome
    | some adj => rfl
  · intro s2 h
    unfold buildAdjoint at h
    cases hf : mapFind s.anfnode_to_adjoin c.id with
    | some adj =>
      rw [hf] at h
      cases h
    | none =>
      rw [hf] at h
      cases hp : (processArgs isC c.id
          (s.anfnode_to_adjoin ++ [(c.id, ⟨op_args, outv, bprop, [], none⟩)])
          (argPairs c op_args)) with
      | error e =>
        rw [hp] at h
        cases h
      | ok m2 =>
        rw [hp] at h
        have hs2 : s2 = ⟨m2, some c.id, s.need_propagate_stop_gradient⟩ := by
          cases h
          rfl
        subst hs2
        have hpp := processArgs_preserves isC c.id (argPairs c op_args) _ m2 hp
        have hkeys1 : ((s.anfnode_to_adjoin ++
            [(c.id, (⟨op_args, outv, bprop, [], none⟩ : PynativeAdjoint))]).map Prod.fst) =
            s.anfnode_to_adjoin.map Prod.fst ++ [c.id] := by
          rw [List.map_append]
          rfl
        have hnotmem : c.id ∉ s.anfnode_to_adjoin.map Prod.fst :=
          (mapFind_eq_none _ _).mp hf
        have hn2 : (m2.map Prod.fst).Nodup := by
          apply hpp.1
          rw [hkeys1]
          simp [List.nodup_append, hnodup, hnotmem]
        have hmem : c.id ∈ m2.map Prod.fst := by
          apply hpp.2
          rw [hkeys1]
          exact List.mem_append_right _ (by simp)
        exact ⟨rfl, hn2, List.count_eq_one_of_mem hn2 hmem⟩

/-- Witness for C8 on a tape already holding an adjoint for node 1, recording
the fresh cnode 2 with argument node 1. -/
theorem C8_tape_single_recording_witness :
    ((mapFind (⟨[(1, ⟨[], 0, none, [], none⟩)], some 1, false⟩ :
        KPynativeCellState).anfnode_to_adjoin (2 : Nat)).isSome = true →
      buildAdjoint (fun n => n == 1 || n == 2)
        ⟨[(1, ⟨[], 0, none, [], none⟩)], some 1, false⟩ ⟨2, [0, 1]⟩ [5] 6 none =
        .error "CNode should be unique") ∧
    (∀ s2, buildAdjoint (fun n => n == 1 || n == 2)
        ⟨[(1, ⟨[], 0, none, [], none⟩)], some 1, false⟩ ⟨2, [0, 1]⟩ [5] 6 none = .ok s2 →
      s2.last_node = some 2 ∧
      (s2.anfnode_to_adjoin.map Prod.fst).Nodup ∧
      (s2.anfnode_to_adjoin.map Prod.fst).count 2 = 1) :=
  C8_tape_single_recording (fun n => n == 1 || n == 2)
    ⟨[(1, ⟨[], 0, none, [], none⟩)], some 1, false⟩ ⟨2, [0, 1]⟩ [5] 6 none (by decide)

/-- **C9 counterexample**: the claim says an argument without an adjoint gets
a leaf adjoint created on the fly, but for an argument that is itself a CNode
the source instead fails fatally ("Cannot find adjoint for anfnode"): here
cnode 9 is recorded with the CNode argument 5 that has no adjoint, and no
adjoint is created — recording aborts. -/
theorem C9_cnode_argument_counterexample :
    buildAdjoint (fun n => n == 5) ⟨[], none, false⟩ ⟨9, [0, 5]⟩ [7] 8 none =
      .error "Cannot find adjoint for anfnode" := by rfl

/-- **C9 (amended)**: for every argument processed by `BuildAdjoint`: if the
argument already has an adjoint, the forward cnode is appended to that
adjoint's users list; otherwise, if the argument is *not* itself a CNode, a
leaf adjoint (empty argument list, the argument's value as output, no
backward function) is created and the forward cnode becomes its sole user;
a CNode argument without an adjoint is a fatal internal error. -/
theorem C9_argument_adjoint_linking (isC : Nat → Bool) (cid : Nat) (m : AdjMap)
    (inp val : Nat) :
    (∀ adj, mapFind m inp = some adj →
      processArg isC cid m (inp, val) = .ok (addUser m inp cid) ∧
      mapFind (addUser m inp cid) inp = some { adj with users := adj.users ++ [cid] }) ∧
    (mapFind m inp = none → isC inp = false →
      processArg isC cid m (inp, val) =
        .ok (addUser (m ++ [(inp, ⟨[], val, none, [], none⟩)]) inp cid) ∧
      mapFind (addUser (m ++ [(inp, ⟨[], val, none, [], none⟩)]) inp cid) inp =
        some ⟨[], val, none, [cid], none⟩) ∧
    (mapFind m inp = none → isC inp = true →
      processArg isC cid m (inp, val) = .error "Cannot find adjoint for anfnode") := by
  refine ⟨fun adj hf => ⟨?_, mapFind_addUser_self m inp cid adj hf⟩, fun hf hC => ⟨?_, ?_⟩,
    fun hf hC => ?_⟩
  · unfold processArg
    rw [hf]
  · unfold processArg
    rw [hf, if_neg (by rw [hC]; exact Bool.false_ne_true)]
  · have hext : mapFind (m ++ [(inp, (⟨[], val, none, [], none⟩ : PynativeAdjoint))]) inp =
        some ⟨[], val, none, [], none⟩ := by
      rw [mapFind_append, hf]
      simp [mapFind]
    have := mapFind_addUser_self _ inp cid _ hext
    simpa using this
  · unfold processArg
    rw [hf, if_pos hC]

/-- Witness for C9 (amended): a fresh non-CNode argument 5 with value 7 gets
the leaf adjoint `⟨[], 7, none, [9], none⟩`. -/
theorem C9_argument_adjoint_linking_witness :
    processArg (fun _ => false) 9 [] (5, 7) =
      .ok (addUser ([] ++ [(5, ⟨[], 7, none, [], none⟩)]) 5 9) ∧
    mapFind (addUser ([] ++ [(5, ⟨[], 7, none, [], none⟩)]) 5 9) 5 =
      some ⟨[], 7, none, [9], none⟩ :=
  (C9_argument_adjoint_linking (fun _ => false) 9 [] 5 7).2.1 rfl rfl

/-! ### Actor runtime: basic lemmas -/

theorem mapFind_mapAppend_self (m : List (Nat × List Nat)) (k v : Nat) :
    mapFind (mapAppend m k v) k = some ((mapFind m k).getD [] ++ [v]) := by
  induction m with
  | nil => simp [mapAppend, mapFind]
  | cons p ps ih =>
    by_cases h : p.1 = k
    · simp [mapAppend, mapFind, h]
    · simp [mapAppend, mapFind, h, ih]

theorem mapFind_mapAppend_ne (m : List (Nat × List Nat)) (k v x : Nat) (hx : x ≠ k) :
    mapFind (mapAppend m k v) x = mapFind m x := by
  have hkx : ¬k = x := fun h => hx h.symm
  induction m with
  | nil => simp [mapAppend, mapFind, hkx]
  | cons p ps ih =>
    by_cases h : p.1 = k
    · simp [mapAppend, mapFind, h, hkx]
    · by_cases hx2 : p.1 = x
      · simp [mapAppend, mapFind, h, hx2, hx]
      · simp [mapAppend, mapFind, h, hx2, ih]

theorem mapErase_find_ne (m : List (Nat × List Nat)) (k x : Nat) (hx : x ≠ k) :
    mapFind (mapErase m k).1 x = mapFind m x := by
  have hkx : ¬k = x := fun h => hx h.symm
  induction m with
  | nil => simp [mapErase]
  | cons p ps ih =>
    by_cases h : p.1 = k
    · simp [mapErase, mapFind, h, hkx]
    · by_cases hx2 : p.1 = x
      · simp [mapErase, mapFind, h, hx2, hx]
      · simp [mapErase, mapFind, h, hx2, ih]

theorem pendingDataCount_runOpData (s : ActorState) (run m : Nat) :
    pendingDataCount (runOpData s run m).1 run = pendingDataCount s run + 1 := by
  unfold pendingDataCount runOpData
  simp [mapFind_mapAppend_self]

theorem checkControlCondition_runOpData (s : ActorState) (run m q : Nat) :
    checkControlCondition (runOpData s run m).1 q = checkControlCondition s q := rfl

theorem checkRunningCondition_congr (s s2 : ActorState) (run : Nat)
    (h1 : s2.input_datas_num = s.input_datas_num)
    (h2 : s2.input_controls_num = s.input_controls_num)
    (h3 : mapFind s2.input_op_datas run = mapFind s.input_op_datas run)
    (h4 : mapFind s2.input_op_controls run = mapFind s.input_op_controls run) :
    checkRunningCondition s2 run = checkRunningCondition s run := by
  unfold checkRunningCondition checkControlCondition
  rw [h1, h2, h3, h4]

/-- Characterization of `CheckRunningCondition` when the data arity is in use
and the control half is satisfied: ready iff the pending size equals the
arity; an error is logged iff it exceeds the arity. -/
theorem checkRunningCondition_char (s : ActorState) (run : Nat)
    (hk : s.input_datas_num ≠ 0)
    (hc : checkControlCondition s run = (true, false)) :
    checkRunningCondition s run =
      (decide (pendingDataCount s run = s.input_datas_num),
       decide (s.input_datas_num < pendingDataCount s run)) := by
  unfold checkRunningCondition
  rw [if_pos hk]
  cases hm : mapFind s.input_op_datas run with
  | none =>
    unfold pendingDataCount
    rw [hm]
    simp only [Option.getD_none, List.length_nil]
    rw [decide_eq_false (fun h => hk h.symm), decide_eq_false (Nat.not_lt_zero _)]
  | some l =>
    unfold pendingDataCount
    rw [hm]
    simp only [Option.getD_some]
    rcases Nat.lt_trichotomy l.length s.input_datas_num with h | h | h
    · rw [if_pos h, decide_eq_false (Nat.ne_of_lt h), decide_eq_false (by omega)]
    · rw [if_neg (by omega), if_neg (by omega), hc]
      simp [h]
    · rw [if_neg (by omega), if_pos h]
      have h1 : ¬l.length = s.input_datas_num := by omega
      simp [h1, h]

/-- If `CheckRunningCondition` passes and the data arity is non-zero, the
pending data size equals the arity. -/
theorem checkRunningCondition_fired_count (s : ActorState) (run : Nat)
    (h : (checkRunningCondition s run).1 = true) :
    s.input_datas_num = 0 ∨ pendingDataCount s run = s.input_datas_num := by
  unfold checkRunningCondition at h
  by_cases hk : s.input_datas_num ≠ 0
  · rw [if_pos hk] at h
    cases hm : mapFind s.input_op_datas run with
    | none =>
      rw [hm] at h
      simp at h
    | some l =>
      rw [hm] at h
      dsimp only at h
      by_cases h1 : l.length < s.input_datas_num
      · rw [if_pos h1] at h; cases h
      · rw [if_neg h1] at h
        by_cases h2 : l.length > s.input_datas_num
        · rw [if_pos h2] at h; cases h
        · right
          unfold pendingDataCount
          rw [hm]
          simp only [Option.getD_some]
          omega
  · left; omega

theorem range_map_getD {α : Type} (n i : Nat) (f : Nat → α) (d : α) (h : i < n) :
    ((List.range n).map f).getD i d = f i := by
  rw [List.getD_eq_getElem _ _ (by simpa using h)]
  simp

/-- Characterization of a whole delivery sequence: with the control half
satisfied and a non-zero data arity, the `i`-th `RunOpData` call observes
`pc + i + 1` pending messages, fires exactly when that count equals the
arity, and logs an error exactly when it exceeds it. -/
theorem deliverSeq_records (run : Nat) (msgs : List Nat) :
    ∀ s : ActorState, s.input_datas_num ≠ 0 →
      checkControlCondition s run = (true, false) →
      (deliverSeq s run msgs).2 =
        (List.range msgs.length).map (fun i =>
          ⟨pendingDataCount s run + i + 1,
           decide (pendingDataCount s run + i + 1 = s.input_datas_num),
           decide (s.input_datas_num < pendingDataCount s run + i + 1)⟩) := by
  induction msgs with
  | nil => intro s _ _; rfl
  | cons m ms ih =>
    intro s hk hc
    have hpc := pendingDataCount_runOpData s run m
    have hnum : (runOpData s run m).1.input_datas_num = s.input_datas_num := rfl
    have hc2 : checkControlCondition (runOpData s run m).1 run = (true, false) := by
      rw [checkControlCondition_runOpData]
      exact hc
    have hchar := checkRunningCondition_char (runOpData s run m).1 run
      (by rw [hnum]; exact hk) hc2
    have htail := ih (runOpData s run m).1 (by rw [hnum]; exact hk) hc2
    have hhead : (⟨pendingDataCount (runOpData s run m).1 run,
        (runOpData s run m).2.1, (runOpData s run m).2.2⟩ : Delivery) =
        ⟨pendingDataCount s run + 1,
         decide (pendingDataCount s run + 1 = s.input_datas_num),
         decide (s.input_datas_num < pendingDataCount s run + 1)⟩ := by
      have hrec : (runOpData s run m).2 =
          checkRunningCondition (runOpData s run m).1 run := rfl
      rw [hrec, hchar, hpc, hnum]
    have hstep : (deliverSeq s run (m :: ms)).2 =
        (⟨pendingDataCount (runOpData s run m).1 run, (runOpData s run m).2.1,
          (runOpData s run m).2.2⟩ : Delivery) ::
        (deliverSeq (runOpData s run m).1 run ms).2 := rfl
    rw [hstep, hhead, htail, hpc, hnum, List.length_cons, List.range_succ_eq_map,
      List.map_cons, List.map_map]
    congr 1
    apply List.map_congr_left
    intro i _
    simp only [Function.comp_apply, Nat.succ_eq_add_one]
    have e : pendingDataCount s run + 1 + i + 1 =
        pendingDataCount s run + (i + 1) + 1 := by omega
    rw [e]

/-! ### C1: exact-arity firing -/

/-- **C1**: for an actor with data arity `k > 0`, a fresh run and the control
half already satisfied, delivering `k + 1` data messages one by one gives:
every delivery before the `k`-th neither fires nor logs an error; the `k`-th
delivery observes `k` pending messages, passes the readiness check and fires
(no error); the `(k+1)`-th delivery observes `k + 1` pending messages, logs
the over-arity error and does not fire; over the whole sequence the actor
fires exactly once. -/
theorem C1_exact_arity_firing (s : ActorState) (run : Nat) (msgs : List Nat)
    (hk : 0 < s.input_datas_num)
    (hfresh : pendingDataCount s run = 0)
    (hc : checkControlCondition s run = (true, false))
    (hlen : msgs.length = s.input_datas_num + 1) :
    (∀ i, i + 1 < s.input_datas_num →
      ((deliverSeq s run msgs).2.getD i ⟨0, true, true⟩).fired = false ∧
      ((deliverSeq s run msgs).2.getD i ⟨0, true, true⟩).errLogged = false) ∧
    ((deliverSeq s run msgs).2.getD (s.input_datas_num - 1) ⟨0, false, false⟩ =
      ⟨s.input_datas_num, true, false⟩) ∧
    ((deliverSeq s run msgs).2.getD s.input_datas_num ⟨0, true, false⟩ =
      ⟨s.input_datas_num + 1, false, true⟩) ∧
    ((deliverSeq s run msgs).2.map Delivery.fired).count true = 1 := by
  have hrec := deliverSeq_records run msgs s (by omega) hc
  rw [hfresh] at hrec
  simp only [Nat.zero_add] at hrec
  rw [hlen] at hrec
  refine ⟨?_, ?_, ?_, ?_⟩
  · intro i hi
    rw [hrec, range_map_getD _ i _ _ (by omega)]
    exact ⟨decide_eq_false (by omega), decide_eq_false (by omega)⟩
  · rw [hrec, range_map_getD _ _ _ _ (by omega)]
    have e : s.input_datas_num - 1 + 1 = s.input_datas_num := by omega
    rw [e, decide_eq_true rfl, decide_eq_false (by omega)]
  · rw [hrec, range_map_getD _ _ _ _ (by omega)]
    rw [decide_eq_false (by omega), decide_eq_true (by omega)]
  · rw [hrec, List.map_map]
    have hfun : (Delivery.fired ∘ (fun i =>
        (⟨i + 1, decide (i + 1 = s.input_datas_num),
          decide (s.input_datas_num < i + 1)⟩ : Delivery))) =
        fun i => decide (i + 1 = s.input_datas_num) := rfl
    rw [hfun]
    have h2 : s.input_datas_num = (s.input_datas_num - 1) + 1 := by omega
    have hsplit : List.range (s.input_datas_num + 1) =
        List.range (s.input_datas_num - 1) ++ [s.input_datas_num - 1, s.input_datas_num] := by
      conv_lhs => rw [h2]
      rw [List.range_succ, List.range_succ, List.append_assoc, ← h2]
      rfl
    rw [hsplit, List.map_append, List.count_append]
    have h0 : ((List.range (s.input_datas_num - 1)).map
        (fun i => decide (i + 1 = s.input_datas_num))).count true = 0 := by
      rw [List.count_eq_zero]
      intro hmem
      rw [List.mem_map] at hmem
      obtain ⟨i, hi, hdec⟩ := hmem
      rw [List.mem_range] at hi
      have := of_decide_eq_true hdec
      omega
    rw [h0]
    have htwo : ([s.input_datas_num - 1, s.input_datas_num].map
        (fun i => decide (i + 1 = s.input_datas_num))) = [true, false] := by
      rw [List.map_cons, List.map_cons, List.map_nil]
      rw [show s.input_datas_num - 1 + 1 = s.input_datas_num from by omega]
      rw [decide_eq_true rfl, decide_eq_false (by omega)]
    rw [htwo]
    rfl

/-- Witness for C1 on a fresh two-data-input actor receiving three messages
for run 7. -/
theorem C1_exact_arity_firing_witness :
    (∀ i, i + 1 < twoDataActor.input_datas_num →
      ((deliverSeq twoDataActor 7 [10, 11, 12]).2.getD i ⟨0, true, true⟩).fired = false ∧
      ((deliverSeq twoDataActor 7 [10, 11, 12]).2.getD i ⟨0, true, true⟩).errLogged = false) ∧
    ((deliverSeq twoDataActor 7 [10, 11, 12]).2.getD (twoDataActor.input_datas_num - 1)
        ⟨0, false, false⟩ = ⟨twoDataActor.input_datas_num, true, false⟩) ∧
    ((deliverSeq twoDataActor 7 [10, 11, 12]).2.getD twoDataActor.input_datas_num
        ⟨0, true, false⟩ = ⟨twoDataActor.input_datas_num + 1, false, true⟩) ∧
    ((deliverSeq twoDataActor 7 [10, 11, 12]).2.map Delivery.fired).count true = 1 :=
  C1_exact_arity_firing twoDataActor 7 [10, 11, 12] (by decide) (by decide)
    (by decide) (by decide)

/-! ### C5: run isolation -/

theorem eraseInput_preserves (s : ActorState) (b a : Nat) (hab : a ≠ b) :
    (eraseInput s b).1.input_datas_num = s.input_datas_num ∧
    (eraseInput s b).1.input_controls_num = s.input_controls_num ∧
    mapFind (eraseInput s b).1.input_op_datas a = mapFind s.input_op_datas a ∧
    mapFind (eraseInput s b).1.input_op_controls a = mapFind s.input_op_controls a := by
  unfold eraseInput
  by_cases h1 : s.input_datas_num ≠ 0 ∧ s.input_op_datas ≠ [] <;>
    by_cases h2 : (mapErase s.input_op_datas b).2 = 0 <;>
      by_cases h3 : s.input_controls_num ≠ 0 ∧ s.input_op_controls ≠ [] <;>
        by_cases h4 : (mapErase s.input_op_controls b).2 = 0 <;>
          simp [h1, h2, h3, h4, mapErase_find_ne _ _ _ hab]

/-- **C5**: two-run noninterference.  Delivering a data or control message for
run `b`, or erasing run `b`'s state after it fired, leaves the pending-data
entry, the pending-control entry and the readiness verdict of any other run
`a` unchanged. -/
theorem C5_run_isolation (s : ActorState) (a b m c : Nat) (hab : a ≠ b) :
    (mapFind (runOpData s b m).1.input_op_datas a = mapFind s.input_op_datas a ∧
     mapFind (runOpData s b m).1.input_op_controls a = mapFind s.input_op_controls a ∧
     checkRunningCondition (runOpData s b m).1 a = checkRunningCondition s a) ∧
    (mapFind (runOpControl s b c).1.input_op_datas a = mapFind s.input_op_datas a ∧
     mapFind (runOpControl s b c).1.input_op_controls a = mapFind s.input_op_controls a ∧
     checkRunningCondition (runOpControl s b c).1 a = checkRunningCondition s a) ∧
    (mapFind (eraseInput s b).1.input_op_datas a = mapFind s.input_op_datas a ∧
     mapFind (eraseInput s b).1.input_op_controls a = mapFind s.input_op_controls a ∧
     checkRunningCondition (eraseInput s b).1 a = checkRunningCondition s a) := by
  have hd := mapFind_mapAppend_ne s.input_op_datas b m a hab
  have hc2 := mapFind_mapAppend_ne s.input_op_controls b c a hab
  have he := eraseInput_preserves s b a hab
  refine ⟨⟨hd, rfl, ?_⟩, ⟨rfl, hc2, ?_⟩, he.2.2.1, he.2.2.2, ?_⟩
  · exact checkRunningCondition_congr s _ a rfl rfl hd rfl
  · exact checkRunningCondition_congr s _ a rfl rfl rfl hc2
  · exact checkRunningCondition_congr s _ a he.1 he.2.1 he.2.2.1 he.2.2.2

/-- Witness for C5: messages and erasure for run 8 leave run 3's state and
readiness on `busyActor` untouched. -/
theorem C5_run_isolation_witness :
    (mapFind (runOpData busyActor 8 11).1.input_op_datas 3 =
       mapFind busyActor.input_op_datas 3 ∧
     mapFind (runOpData busyActor 8 11).1.input_op_controls 3 =
       mapFind busyActor.input_op_controls 3 ∧
     checkRunningCondition (runOpData busyActor 8 11).1 3 =
       checkRunningCondition busyActor 3) ∧
    (mapFind (runOpControl busyActor 8 12).1.input_op_datas 3 =
       mapFind busyActor.input_op_datas 3 ∧
     mapFind (runOpControl busyActor 8 12).1.input_op_controls 3 =
       mapFind busyActor.input_op_controls 3 ∧
     checkRunningCondition (runOpControl busyActor 8 12).1 3 =
       checkRunningCondition busyActor 3) ∧
    (mapFind (eraseInput busyActor 8).1.input_op_datas 3 =
       mapFind busyActor.input_op_datas 3 ∧
     mapFind (eraseInput busyActor 8).1.input_op_controls 3 =
       mapFind busyActor.input_op_controls 3 ∧
     checkRunningCondition (eraseInput busyActor 8).1 3 =
       checkRunningCondition busyActor 3) :=
  C5_run_isolation busyActor 3 8 11 12 (by decide)

/-! ### C4: over-arity handling -/

theorem checkRunningCondition_over (s : ActorState) (run : Nat)
    (hk : s.input_datas_num ≠ 0)
    (hover : s.input_datas_num < pendingDataCount s run) :
    checkRunningCondition s run = (false, true) := by
  unfold checkRunningCondition
  rw [if_pos hk]
  cases hm : mapFind s.input_op_datas run with
  | none =>
    exfalso
    unfold pendingDataCount at hover
    rw [hm] at hover
    simp at hover
  | some l =>
    unfold pendingDataCount at hover
    rw [hm] at hover
    simp only [Option.getD_some] at hover
    dsimp only
    rw [if_neg (by omega), if_pos (by omega)]

/-- **C4 counterexample**: the claim says an over-arity delivery aborts the
run and records the error in the run's shared context.  On the concrete
actor `overloadedActor` (arity 1, already holding run 7's message), the
second data delivery for run 7 logs the over-arity error and forces the
readiness check false, but the context's failure slot stays empty and `Run`
(which here would record a failure) is never invoked: the run is not
aborted. -/
theorem C4_no_abort_counterexample :
    (runOpDataCtx failingRunImpl overloadedActor ctx7 11).2.2.2 = true ∧
    (runOpDataCtx failingRunImpl overloadedActor ctx7 11).2.2.1 = false ∧
    (runOpDataCtx failingRunImpl overloadedActor ctx7 11).2.1.error_info = none := by
  decide

/-- The control half of the check also fails with a logged error when the
pending control count exceeds the declared control arity, provided the data
half of the check passes. -/
theorem checkRunningCondition_control_over (s : ActorState) (run : Nat)
    (hdata : s.input_datas_num = 0 ∨ pendingDataCount s run = s.input_datas_num)
    (hkc : s.input_controls_num ≠ 0)
    (hover : s.input_controls_num < pendingControlCount s run) :
    checkRunningCondition s run = (false, true) := by
  have hctrl : checkControlCondition s run = (false, true) := by
    unfold checkControlCondition
    rw [if_pos hkc]
    cases hm : mapFind s.input_op_controls run with
    | none =>
      exfalso
      unfold pendingControlCount at hover
      rw [hm] at hover
      simp at hover
    | some l =>
      unfold pendingControlCount at hover
      rw [hm] at hover
      simp only [Option.getD_some] at hover
      dsimp only
      rw [if_neg (by omega), if_pos (by omega)]
  unfold checkRunningCondition
  by_cases hk : s.input_datas_num ≠ 0
  · rw [if_pos hk]
    rcases hdata with h0 | hcnt
    · exact absurd h0 hk
    · cases hm : mapFind s.input_op_datas run with
      | none =>
        exfalso
        unfold pendingDataCount at hcnt
        rw [hm] at hcnt
        simp at hcnt
        exact hk hcnt.symm
      | some l =>
        unfold pendingDataCount at hcnt
        rw [hm] at hcnt
        simp only [Option.getD_some] at hcnt
        dsimp only
        rw [if_neg (by omega), if_neg (by omega)]
        exact hctrl
  · rw [if_neg hk]
    exact hctrl

theorem pendingControlCount_runOpControl (s : ActorState) (run c : Nat) :
    pendingControlCount (runOpControl s run c).1 run = pendingControlCount s run + 1 := by
  unfold pendingControlCount runOpControl
  simp [mapFind_mapAppend_self]

/-- **C4 (amended)**: when the number of arrived data (or control) messages
for a run exceeds the actor's declared requirement, the violation is reported
as a logged error and the readiness check is forced false, so the actor does
not fire for that run and (for any `Run` implementation) neither the run
context nor anything beyond the pending map is touched — the run is not
aborted and no failure is recorded in the context.  (For controls, the
over-arity error is logged once the data half of the check passes.) -/
theorem C4_overflow_logged_not_fatal
    (runImpl : ActorState → OpContext → ActorState × OpContext)
    (s : ActorState) (ctx : OpContext) (msg ctrl : Nat) :
    (s.input_datas_num ≠ 0 →
      s.input_datas_num ≤ pendingDataCount s ctx.sequential_num →
      (runOpDataCtx runImpl s ctx msg).2.1 = ctx ∧
      (runOpDataCtx runImpl s ctx msg).2.2.1 = false ∧
      (runOpDataCtx runImpl s ctx msg).2.2.2 = true ∧
      (runOpDataCtx runImpl s ctx msg).1 =
        { s with input_op_datas := mapAppend s.input_op_datas ctx.sequential_num msg }) ∧
    ((s.input_datas_num = 0 ∨ pendingDataCount s ctx.sequential_num = s.input_datas_num) →
      s.input_controls_num ≠ 0 →
      s.input_controls_num ≤ pendingControlCount s ctx.sequential_num →
      (runOpControlCtx runImpl s ctx ctrl).2.1 = ctx ∧
      (runOpControlCtx runImpl s ctx ctrl).2.2.1 = false ∧
      (runOpControlCtx runImpl s ctx ctrl).2.2.2 = true ∧
      (runOpControlCtx runImpl s ctx ctrl).1 =
        { s with input_op_controls :=
            mapAppend s.input_op_controls ctx.sequential_num ctrl }) := by
  constructor
  · intro hk hover
    have hpc := pendingDataCount_runOpData s ctx.sequential_num msg
    have hchk := checkRunningCondition_over (runOpData s ctx.sequential_num msg).1
      ctx.sequential_num hk
      (by show s.input_datas_num <
            pendingDataCount (runOpData s ctx.sequential_num msg).1 ctx.sequential_num
          rw [hpc]
          omega)
    simp only [runOpDataCtx]
    rw [show (runOpData s ctx.sequential_num msg).2 =
        checkRunningCondition (runOpData s ctx.sequential_num msg).1 ctx.sequential_num
        from rfl, hchk]
    exact ⟨rfl, rfl, rfl, rfl⟩
  · intro hdata hkc hover
    have hpc := pendingControlCount_runOpControl s ctx.sequential_num ctrl
    have hdata2 : (runOpControl s ctx.sequential_num ctrl).1.input_datas_num = 0 ∨
        pendingDataCount (runOpControl s ctx.sequential_num ctrl).1 ctx.sequential_num =
          (runOpControl s ctx.sequential_num ctrl).1.input_datas_num := hdata
    have hchk := checkRunningCondition_control_over
      (runOpControl s ctx.sequential_num ctrl).1 ctx.sequential_num hdata2 hkc
      (by show s.input_controls_num <
            pendingControlCount (runOpControl s ctx.sequential_num ctrl).1 ctx.sequential_num
          rw [hpc]
          omega)
    simp only [runOpControlCtx]
    rw [show (runOpControl s ctx.sequential_num ctrl).2 =
        checkRunningCondition (runOpControl s ctx.sequential_num ctrl).1 ctx.sequential_num
        from rfl, hchk]
    exact ⟨rfl, rfl, rfl, rfl⟩

/-- Witness for C4 (amended): the data half on `overloadedActor` and run 7,
and the control half on `busyActor` with its single control slot already
filled for run 3. -/
theorem C4_overflow_logged_not_fatal_witness :
    ((runOpDataCtx failingRunImpl overloadedActor ctx7 12).2.1 = ctx7 ∧
     (runOpDataCtx failingRunImpl overloadedActor ctx7 12).2.2.1 = false ∧
     (runOpDataCtx failingRunImpl overloadedActor ctx7 12).2.2.2 = true ∧
     (runOpDataCtx failingRunImpl overloadedActor ctx7 12).1 =
       { overloadedActor with
         input_op_datas :=
           mapAppend overloadedActor.input_op_datas ctx7.sequential_num 12 }) ∧
    ((runOpControlCtx failingRunImpl ⟨0, 1, [], [(7, [4])]⟩ ctx7 13).2.1 = ctx7 ∧
     (runOpControlCtx failingRunImpl ⟨0, 1, [], [(7, [4])]⟩ ctx7 13).2.2.1 = false ∧
     (runOpControlCtx failingRunImpl ⟨0, 1, [], [(7, [4])]⟩ ctx7 13).2.2.2 = true ∧
     (runOpControlCtx failingRunImpl ⟨0, 1, [], [(7, [4])]⟩ ctx7 13).1 =
       { (⟨0, 1, [], [(7, [4])]⟩ : ActorState) with
         input_op_controls :=
           mapAppend (⟨0, 1, [], [(7, [4])]⟩ : ActorState).input_op_controls
             ctx7.sequential_num 13 }) :=
  ⟨(C4_overflow_logged_not_fatal failingRunImpl overloadedActor ctx7 12 13).1
      (by decide) (by decide),
   (C4_overflow_logged_not_fatal failingRunImpl ⟨0, 1, [], [(7, [4])]⟩ ctx7 12 13).2
      (by decide) (by decide) (by decide)⟩

/-! ### C6: output dispatch order and success signalling -/

theorem foldl_append_eq_flatMap {α β : Type} (f : α → List β) (items : List α) :
    ∀ es0 : List β, items.foldl (fun es it => es ++ f it) es0 = es0 ++ items.flatMap f := by
  induction items with
  | nil => intro es0; simp
  | cons it its ih =>
    intro es0
    rw [List.foldl_cons, ih, List.flatMap_cons, ← List.append_assoc]

theorem dataSendEvents_isData (bmap : Nat → List Nat) (it : OutputDataItem) :
    ∀ e ∈ dataSendEvents bmap it, e.isData = true := by
  intro e he
  unfold dataSendEvents at he
  cases hflag : it.flag <;> rw [hflag] at he <;> simp at he <;> subst he <;> rfl

/-- On the non-failing path, `sendOutput` emits exactly the data-send events,
then the control-send events, then the recorder-info step. -/
theorem sendOutput_trace (a : SenderActor) (ctx : OpContext)
    (hsz : a.output_data_arrows_len = a.output_data.length ∧
           a.output_data_arrows_len = a.output_data_nodes_len) :
    (sendOutput a ctx).1 =
      a.output_data.flatMap (dataSendEvents a.batch_output_data) ++
      a.output_control_arrows.map SendEvent.sendControl ++ [SendEvent.recorderInfo] := by
  unfold sendOutput
  rw [if_neg (by
    rintro ⟨h1 | h2, -⟩
    · exact h1 hsz.1
    · exact h2 hsz.2)]
  rw [foldl_append_eq_flatMap]
  by_cases hc : a.output_data_arrows_len = 0 ∧ a.output_control_arrows.length = 0 ∧
      a.type < kSwitchActor
  · rw [if_pos hc]
    simp
  · rw [if_neg hc]
    simp

/-- **C6**: on firing (with the arrow/data size guard satisfied), the output
dispatch order is: all data sends first, then all control sends, then the
recorder info; and the run context is signalled successful if and only if the
actor has zero output data arrows and zero output control arrows and is not a
control-flow actor type (`type_ < kSwitchActor`). -/
theorem C6_send_output_order (a : SenderActor) (ctx : OpContext)
    (hsz : a.output_data_arrows_len = a.output_data.length ∧
           a.output_data_arrows_len = a.output_data_nodes_len)
    (hctx : ctx.success = false) :
    ∃ ds cs, (sendOutput a ctx).1 = ds ++ cs ++ [SendEvent.recorderInfo] ∧
      (∀ e ∈ ds, e.isData = true) ∧
      (∀ e ∈ cs, e.isControl = true) ∧
      ((sendOutput a ctx).2.success = true ↔
        (a.output_data_arrows_len = 0 ∧ a.output_control_arrows.length = 0 ∧
         a.type < kSwitchActor)) := by
  refine ⟨a.output_data.flatMap (dataSendEvents a.batch_output_data),
    a.output_control_arrows.map SendEvent.sendControl,
    sendOutput_trace a ctx hsz, ?_, ?_, ?_⟩
  · intro e he
    rw [List.mem_flatMap] at he
    obtain ⟨it, hit, he2⟩ := he
    exact dataSendEvents_isData a.batch_output_data it e he2
  · intro e he
    rw [List.mem_map] at he
    obtain ⟨d, hd, he2⟩ := he
    rw [← he2]
    rfl
  · unfold sendOutput
    rw [if_neg (by
      rintro ⟨h1 | h2, -⟩
      · exact h1 hsz.1
      · exact h2 hsz.2)]
    by_cases hc : a.output_data_arrows_len = 0 ∧ a.output_control_arrows.length = 0 ∧
        a.type < kSwitchActor
    · rw [if_pos hc]
      simpa using hc
    · rw [if_neg hc]
      show ctx.success = true ↔ _
      rw [hctx]
      exact ⟨fun h => Bool.noConfusion h, fun h => absurd h hc⟩

/-- Witness for C6 on a two-arrow sender with one control arrow. -/
theorem C6_send_output_order_witness :
    ∃ ds cs, (sendOutput ⟨2, 2, [⟨5, 0, 0, OutputDataFlag.init⟩,
        ⟨6, 0, 1, OutputDataFlag.init⟩], fun _ => [], [7], 0⟩ ctx7).1 =
        ds ++ cs ++ [SendEvent.recorderInfo] ∧
      (∀ e ∈ ds, e.isData = true) ∧
      (∀ e ∈ cs, e.isControl = true) ∧
      ((sendOutput ⟨2, 2, [⟨5, 0, 0, OutputDataFlag.init⟩,
          ⟨6, 0, 1, OutputDataFlag.init⟩], fun _ => [], [7], 0⟩ ctx7).2.success = true ↔
        ((2 : Nat) = 0 ∧ ([7] : List Nat).length = 0 ∧ (0 : Nat) < kSwitchActor)) :=
  C6_send_output_order ⟨2, 2, [⟨5, 0, 0, OutputDataFlag.init⟩,
    ⟨6, 0, 1, OutputDataFlag.init⟩], fun _ => [], [7], 0⟩ ctx7 (by exact ⟨rfl, rfl⟩) rfl

/-! ### C3: batch delivery -/

/-- **C3 counterexample**: the claim says the destination only ever observes
0 or N batch members when evaluating readiness.  On the concrete two-input
destination `twoDataActor`, `RunBatchOpData` with the 2-member batch
`[21, 22]` for run 7 delivers the members one `RunOpData` call at a time:
the first call evaluates `CheckRunningCondition` while the pending list holds
exactly 1 of the 2 batch members — a non-empty strict subset (0 < 1 < 2). -/
theorem C3_partial_observation_counterexample :
    (runBatchOpData twoDataActor 7 [21, 22]).2 =
      [⟨1, false, false⟩, ⟨2, true, false⟩] ∧ ((0 : Nat) < 1 ∧ 1 < 2) := by
  decide

/-- During a batched delivery whose size fits the remaining data arity, a
readiness check can return `true` only at the very last member: the actor
never fires while holding a strict subset of the batch. -/
theorem runBatchOpData_no_partial_fire (run : Nat) (batch : List Nat) :
    ∀ s : ActorState, pendingDataCount s run + batch.length ≤ s.input_datas_num →
      ∀ i, ((runBatchOpData s run batch).2.getD i ⟨0, false, false⟩).fired = true →
        i + 1 = batch.length := by
  induction batch with
  | nil =>
    intro s hfit i hfired
    simp [runBatchOpData, deliverSeq] at hfired
  | cons m ms ih =>
    intro s hfit i hfired
    have hpc := pendingDataCount_runOpData s run m
    have hnum : (runOpData s run m).1.input_datas_num = s.input_datas_num := rfl
    have hcons : (runBatchOpData s run (m :: ms)).2 =
        (⟨pendingDataCount (runOpData s run m).1 run, (runOpData s run m).2.1,
          (runOpData s run m).2.2⟩ : Delivery) ::
        (runBatchOpData (runOpData s run m).1 run ms).2 := rfl
    rw [List.length_cons] at hfit
    match i with
    | 0 =>
      rw [hcons, List.getD_cons_zero] at hfired
      have hchk : (checkRunningCondition (runOpData s run m).1 run).1 = true := hfired
      rcases checkRunningCondition_fired_count _ _ hchk with h0 | hcnt
      · rw [hnum] at h0
        omega
      · rw [hpc, hnum] at hcnt
        rw [List.length_cons]
        omega
    | Nat.succ j =>
      rw [hcons, List.getD_cons_succ] at hfired
      have hfit2 : pendingDataCount (runOpData s run m).1 run + ms.length ≤
          (runOpData s run m).1.input_datas_num := by
        rw [hpc, hnum]
        omega
      have := ih (runOpData s run m).1 hfit2 j hfired
      rw [List.length_cons]
      omega

/-- **C3 (amended)**: batch sends are deferred — a `Batch`-flagged envelope is
never sent individually, and each `LastBatch` envelope flushes the entire
per-destination batch list as one `RunBatchOpData` delivery.  The destination
processes that batched delivery one member at a time, evaluating readiness
after each member (so it can hold a strict subset at an evaluation), but as
long as its declared data arity covers the prior pending count plus the
whole batch, a readiness check can pass only at the last member: the actor
never fires while holding a non-empty strict subset of the batch. -/
theorem C3_batch_atomicity_amended (a : SenderActor) (ctx : OpContext)
    (s : ActorState) (run : Nat) (batch : List Nat)
    (hsz : a.output_data_arrows_len = a.output_data.length ∧
           a.output_data_arrows_len = a.output_data_nodes_len)
    (hinj : (a.output_data.map OutputDataItem.arrow_idx).Nodup)
    (hfit : pendingDataCount s run + batch.length ≤ s.input_datas_num) :
    (∀ it ∈ a.output_data, it.flag = OutputDataFlag.batch →
      ∀ d, SendEvent.sendData d it.arrow_idx ∉ (sendOutput a ctx).1) ∧
    (∀ it ∈ a.output_data, it.flag = OutputDataFlag.lastBatch →
      SendEvent.sendBatch it.to_op_id (a.batch_output_data it.to_op_id) ∈
        (sendOutput a ctx).1) ∧
    (∀ i, ((runBatchOpData s run batch).2.getD i ⟨0, false, false⟩).fired = true →
      i + 1 = batch.length) := by
  refine ⟨?_, ?_, runBatchOpData_no_partial_fire run batch s hfit⟩
  · intro it hit hbatch d hmem
    rw [sendOutput_trace a ctx hsz] at hmem
    rcases List.mem_append.mp hmem with hmem1 | hmem2
    · rcases List.mem_append.mp hmem1 with hds | hcs
      · rw [List.mem_flatMap] at hds
        obtain ⟨it2, hit2, he⟩ := hds
        unfold dataSendEvents at he
        cases hfl : it2.flag <;> rw [hfl] at he <;> simp at he
        · obtain ⟨-, hidx⟩ := he
          have heq := List.inj_on_of_nodup_map hinj hit hit2 hidx
          rw [heq, hfl] at hbatch
          cases hbatch
        · obtain ⟨-, hidx⟩ := he
          have heq := List.inj_on_of_nodup_map hinj hit hit2 hidx
          rw [heq, hfl] at hbatch
          cases hbatch
      · rw [List.mem_map] at hcs
        obtain ⟨q, -, he⟩ := hcs
        cases he
    · rw [List.mem_singleton] at hmem2
      cases hmem2
  · intro it hit hlast
    rw [sendOutput_trace a ctx hsz]
    apply List.mem_append_left
    apply List.mem_append_left
    rw [List.mem_flatMap]
    refine ⟨it, hit, ?_⟩
    unfold dataSendEvents
    rw [hlast]
    simp

/-- Witness for C3 (amended): the two-member batch sender `batchSender` and
the two-input destination `twoDataActor` receiving the batch `[21, 22]` for
run 7. -/
theorem C3_batch_atomicity_amended_witness :
    (∀ it ∈ batchSender.output_data, it.flag = OutputDataFlag.batch →
      ∀ d, SendEvent.sendData d it.arrow_idx ∉ (sendOutput batchSender ctx7).1) ∧
    (∀ it ∈ batchSender.output_data, it.flag = OutputDataFlag.lastBatch →
      SendEvent.sendBatch it.to_op_id (batchSender.batch_output_data it.to_op_id) ∈
        (sendOutput batchSender ctx7).1) ∧
    (∀ i, ((runBatchOpData twoDataActor 7 [21, 22]).2.getD i ⟨0, false, false⟩).fired = true →
      i + 1 = ([21, 22] : List Nat).length) :=
  C3_batch_atomicity_amended batchSender ctx7 twoDataActor 7 [21, 22]
    (by exact ⟨rfl, rfl⟩) (by decide) (by decide)

/-! ### C10: InitOutputData batch-flag invariant -/

theorem countBatchTo_cons (d : Nat) (p : Nat × DataArrow) (ps : List (Nat × DataArrow)) :
    countBatchTo d (p :: ps) =
      countBatchTo d ps +
      (if p.2.flag = OutputDataFlag.batch ∧ p.2.to_op_id = d then 1 else 0) := by
  by_cases h : p.2.flag = OutputDataFlag.batch ∧ p.2.to_op_id = d
  · simp [countBatchTo, List.countP_cons, h]
  · simp [countBatchTo, List.countP_cons, h]

theorem batchIdxsTo_cons (d : Nat) (p : Nat × DataArrow) (ps : List (Nat × DataArrow)) :
    batchIdxsTo d (p :: ps) =
      if p.2.flag = OutputDataFlag.batch ∧ p.2.to_op_id = d
      then p.1 :: batchIdxsTo d ps else batchIdxsTo d ps := by
  by_cases h : p.2.flag = OutputDataFlag.batch ∧ p.2.to_op_id = d
  · simp [batchIdxsTo, List.filter_cons, h]
  · simp [batchIdxsTo, List.filter_cons, h]

theorem batchIdxsTo_length (d : Nat) (ps : List (Nat × DataArrow)) :
    (batchIdxsTo d ps).length = countBatchTo d ps := by
  unfold batchIdxsTo countBatchTo
  rw [List.length_map, ← List.countP_eq_length_filter]

/-- The `InitOutputData` loop succeeds when no batch arrow targets a stack
actor, and its result is characterized by `countBatchTo`, `batchIdxsTo` and
`itemsFrom`. -/
theorem initLoop_ok (isStack : Nat → Bool) (bas : Nat → Nat) :
    ∀ (ps : List (Nat × DataArrow)) (acc : InitAcc),
      (∀ p ∈ ps, p.2.flag = OutputDataFlag.batch → isStack p.2.to_op_id = false) →
      ∃ acc2, initLoop isStack bas acc ps = .ok acc2 ∧
        (∀ d, acc2.batch_op_count d = acc.batch_op_count d + countBatchTo d ps) ∧
        (∀ d, acc2.batch_output_data d = acc.batch_output_data d ++ batchIdxsTo d ps) ∧
        acc2.output_data = acc.output_data ++ itemsFrom isStack bas acc.batch_op_count ps := by
  intro ps
  induction ps with
  | nil =>
    intro acc hns
    exact ⟨acc, rfl, fun d => by simp [countBatchTo], fun d => by simp [batchIdxsTo],
      by simp [itemsFrom]⟩
  | cons p ps ih =>
    intro acc hns
    by_cases hb : p.2.flag = OutputDataFlag.batch
    · have hstk : isStack p.2.to_op_id = false := hns p (List.mem_cons_self _ _) hb
      have hstep : initStep isStack bas acc p = .ok
          ⟨fun d => if d = p.2.to_op_id then acc.batch_op_count d + 1
                    else acc.batch_op_count d,
           fun d => if d = p.2.to_op_id then acc.batch_output_data d ++ [p.1]
                    else acc.batch_output_data d,
           acc.output_data ++ [⟨p.2.to_op_id, p.2.to_input_index, p.1,
             if acc.batch_op_count p.2.to_op_id + 1 = bas p.2.to_op_id
             then OutputDataFlag.lastBatch else OutputDataFlag.batch⟩]⟩ := by
        unfold initStep
        rw [if_pos hb, if_neg (by rw [hstk]; exact Bool.false_ne_true)]
      obtain ⟨acc2, hloop, hcnt, hbmap, hout⟩ :=
        ih _ (fun q hq hfl => hns q (List.mem_cons_of_mem _ hq) hfl)
      refine ⟨acc2, ?_, ?_, ?_, ?_⟩
      · simp only [initLoop, hstep]
        exact hloop
      · intro d
        rw [hcnt d, countBatchTo_cons]
        dsimp only
        by_cases hd : d = p.2.to_op_id
        · rw [if_pos hd,
            if_pos (⟨hb, hd.symm⟩ : p.2.flag = OutputDataFlag.batch ∧ p.2.to_op_id = d)]
          omega
        · rw [if_neg hd,
            if_neg (fun hh : p.2.flag = OutputDataFlag.batch ∧ p.2.to_op_id = d =>
              hd hh.2.symm)]
          omega
      · intro d
        rw [hbmap d, batchIdxsTo_cons]
        dsimp only
        by_cases hd : d = p.2.to_op_id
        · rw [if_pos hd,
            if_pos (⟨hb, hd.symm⟩ : p.2.flag = OutputDataFlag.batch ∧ p.2.to_op_id = d),
            List.append_assoc]
          rfl
        · rw [if_neg hd,
            if_neg (fun hh : p.2.flag = OutputDataFlag.batch ∧ p.2.to_op_id = d =>
              hd hh.2.symm)]
      · rw [hout]
        dsimp only
        rw [List.append_assoc]
        congr 1
        simp only [itemsFrom, if_pos hb]
        rfl
    · have hstep : initStep isStack bas acc p = .ok
          ⟨acc.batch_op_count, acc.batch_output_data,
           acc.output_data ++ [⟨p.2.to_op_id, p.2.to_input_index, p.1,
             if isStack p.2.to_op_id then OutputDataFlag.toStack
             else OutputDataFlag.init⟩]⟩ := by
        unfold initStep
        rw [if_neg hb]
      obtain ⟨acc2, hloop, hcnt, hbmap, hout⟩ :=
        ih _ (fun q hq hfl => hns q (List.mem_cons_of_mem _ hq) hfl)
      refine ⟨acc2, ?_, ?_, ?_, ?_⟩
      · simp only [initLoop, hstep]
        exact hloop
      · intro d
        rw [hcnt d, countBatchTo_cons,
          if_neg (fun hh : p.2.flag = OutputDataFlag.batch ∧ p.2.to_op_id = d => hb hh.1)]
        dsimp only
        omega
      · intro d
        rw [hbmap d, batchIdxsTo_cons,
          if_neg (fun hh : p.2.flag = OutputDataFlag.batch ∧ p.2.to_op_id = d => hb hh.1)]
      · rw [hout]
        dsimp only
        rw [List.append_assoc]
        congr 1
        simp only [itemsFrom, if_neg hb]
        rfl

theorem itemsFrom_batchish_count (isStack : Nat → Bool) (bas : Nat → Nat) (d : Nat) :
    ∀ (ps : List (Nat × DataArrow)) (cnt : Nat → Nat),
      List.countP (fun it => decide (it.to_op_id = d ∧
        (it.flag = OutputDataFlag.batch ∨ it.flag = OutputDataFlag.lastBatch)))
        (itemsFrom isStack bas cnt ps) = countBatchTo d ps := by
  intro ps
  induction ps with
  | nil => intro cnt; simp [itemsFrom, countBatchTo]
  | cons p ps ih =>
    intro cnt
    rw [countBatchTo_cons]
    by_cases hb : p.2.flag = OutputDataFlag.batch
    · simp only [itemsFrom, if_pos hb, List.countP_cons]
      rw [ih]
      by_cases hd : p.2.to_op_id = d
      · rw [if_pos (⟨hb, hd⟩ : p.2.flag = OutputDataFlag.batch ∧ p.2.to_op_id = d)]
        by_cases hfl : cnt p.2.to_op_id + 1 = bas p.2.to_op_id <;> simp [hfl, hd]
      · rw [if_neg (fun hh : p.2.flag = OutputDataFlag.batch ∧ p.2.to_op_id = d =>
          hd hh.2)]
        simp [hd]
    · simp only [itemsFrom, if_neg hb, List.countP_cons]
      rw [ih, if_neg (fun hh : p.2.flag = OutputDataFlag.batch ∧ p.2.to_op_id = d =>
        hb hh.1)]
      by_cases hstk : isStack p.2.to_op_id <;> simp [hstk]

theorem itemsFrom_lastBatch_count (isStack : Nat → Bool) (bas : Nat → Nat) (d : Nat) :
    ∀ (ps : List (Nat × DataArrow)) (cnt : Nat → Nat),
      cnt d + countBatchTo d ps = bas d →
      List.countP (fun it => decide (it.to_op_id = d ∧ it.flag = OutputDataFlag.lastBatch))
        (itemsFrom isStack bas cnt ps) =
        if countBatchTo d ps = 0 then 0 else 1 := by
  intro ps
  induction ps with
  | nil => intro cnt hinv; simp [itemsFrom, countBatchTo]
  | cons p ps ih =>
    intro cnt hinv
    rw [countBatchTo_cons] at hinv ⊢
    by_cases hb : p.2.flag = OutputDataFlag.batch
    · by_cases hd : p.2.to_op_id = d
      · rw [if_pos (⟨hb, hd⟩ : p.2.flag = OutputDataFlag.batch ∧ p.2.to_op_id = d)]
          at hinv ⊢
        simp only [itemsFrom, if_pos hb, List.countP_cons]
        have hcnt2 : (if d = p.2.to_op_id then cnt d + 1 else cnt d) = cnt d + 1 :=
          if_pos hd.symm
        by_cases hz : countBatchTo d ps = 0
        · have hfl : cnt p.2.to_op_id + 1 = bas p.2.to_op_id := by rw [hd]; omega
          rw [ih _ (by rw [hcnt2]; omega), if_pos hfl]
          simp [hd, hz]
        · have hfl : ¬(cnt p.2.to_op_id + 1 = bas p.2.to_op_id) := by rw [hd]; omega
          rw [if_neg hfl, ih _ (by rw [hcnt2]; omega)]
          simp [hz]
      · rw [if_neg (fun hh : p.2.flag = OutputDataFlag.batch ∧ p.2.to_op_id = d =>
          hd hh.2)] at hinv ⊢
        simp only [itemsFrom, if_pos hb, List.countP_cons]
        have hcnt2 : (if d = p.2.to_op_id then cnt d + 1 else cnt d) = cnt d :=
          if_neg (fun hh => hd hh.symm)
        rw [ih _ (by rw [hcnt2]; omega)]
        simp [hd]
    · rw [if_neg (fun hh : p.2.flag = OutputDataFlag.batch ∧ p.2.to_op_id = d =>
        hb hh.1)] at hinv ⊢
      simp only [itemsFrom, if_neg hb, List.countP_cons]
      rw [ih _ (by omega)]
      by_cases hstk : isStack p.2.to_op_id <;> simp [hstk]

theorem itemsFrom_lastBatch_idx (isStack : Nat → Bool) (bas : Nat → Nat) (d : Nat) :
    ∀ (ps : List (Nat × DataArrow)) (cnt : Nat → Nat),
      cnt d + countBatchTo d ps = bas d →
      ∀ it ∈ itemsFrom isStack bas cnt ps, it.to_op_id = d →
        it.flag = OutputDataFlag.lastBatch →
        (batchIdxsTo d ps).getLast? = some it.arrow_idx := by
  intro ps
  induction ps with
  | nil =>
    intro cnt hinv it hit
    simp [itemsFrom] at hit
  | cons p ps ih =>
    intro cnt hinv it hit htod hlast
    rw [countBatchTo_cons] at hinv
    rw [batchIdxsTo_cons]
    by_cases hb : p.2.flag = OutputDataFlag.batch
    · by_cases hd : p.2.to_op_id = d
      · rw [if_pos (⟨hb, hd⟩ : p.2.flag = OutputDataFlag.batch ∧ p.2.to_op_id = d)]
          at hinv ⊢
        simp only [itemsFrom, if_pos hb, List.mem_cons] at hit
        have hcnt2 : (if d = p.2.to_op_id then cnt d + 1 else cnt d) = cnt d + 1 :=
          if_pos hd.symm
        by_cases hz : countBatchTo d ps = 0
        · have hempty : batchIdxsTo d ps = [] :=
            List.length_eq_zero.mp (by rw [batchIdxsTo_length]; exact hz)
          rcases hit with hhead | htail
          · rw [hempty, hhead]
            rfl
          · exfalso
            have h0 := itemsFrom_lastBatch_count isStack bas d ps
              (fun q => if q = p.2.to_op_id then cnt q + 1 else cnt q)
              (by show (if d = p.2.to_op_id then cnt d + 1 else cnt d) + _ = _
                  rw [hcnt2]
                  omega)
            rw [if_pos hz] at h0
            rw [List.countP_eq_zero] at h0
            have h1 := h0 it htail
            rw [decide_eq_true_eq] at h1
            exact h1 ⟨htod, hlast⟩
        · have hfl : ¬(cnt p.2.to_op_id + 1 = bas p.2.to_op_id) := by rw [hd]; omega
          rcases hit with hhead | htail
          · exfalso
            rw [hhead] at hlast
            have h2 : (if cnt p.2.to_op_id + 1 = bas p.2.to_op_id
                then OutputDataFlag.lastBatch else OutputDataFlag.batch) =
                OutputDataFlag.lastBatch := hlast
            rw [if_neg hfl] at h2
            cases h2
          · have hne : batchIdxsTo d ps ≠ [] := by
              intro hh
              have hlen := batchIdxsTo_length d ps
              rw [hh] at hlen
              simp at hlen
              exact hz hlen.symm
            have hrec := ih (fun q => if q = p.2.to_op_id then cnt q + 1 else cnt q)
              (by show (if d = p.2.to_op_id then cnt d + 1 else cnt d) + _ = _
                  rw [hcnt2]
                  omega)
              it htail htod hlast
            cases hlst : batchIdxsTo d ps with
            | nil => exact absurd hlst hne
            | cons x xs =>
              rw [hlst] at hrec
              rw [List.getLast?_cons_cons]
              exact hrec
      · rw [if_neg (fun hh : p.2.flag = OutputDataFlag.batch ∧ p.2.to_op_id = d =>
          hd hh.2)] at hinv ⊢
        simp only [itemsFrom, if_pos hb, List.mem_cons] at hit
        have hcnt2 : (if d = p.2.to_op_id then cnt d + 1 else cnt d) = cnt d :=
          if_neg (fun hh => hd hh.symm)
        rcases hit with hhead | htail
        · exfalso
          rw [hhead] at htod
          exact hd htod
        · exact ih _
            (by show (if d = p.2.to_op_id then cnt d + 1 else cnt d) + _ = _
                rw [hcnt2]
                omega)
            it htail htod hlast
    · rw [if_neg (fun hh : p.2.flag = OutputDataFlag.batch ∧ p.2.to_op_id = d =>
        hb hh.1)] at hinv ⊢
      simp only [itemsFrom, if_neg hb, List.mem_cons] at hit
      rcases hit with hhead | htail
      · exfalso
        rw [hhead] at hlast
        have h2 : (if isStack p.2.to_op_id then OutputDataFlag.toStack
            else OutputDataFlag.init) = OutputDataFlag.lastBatch := hlast
        by_cases hstk : isStack p.2.to_op_id
        · rw [if_pos hstk] at h2
          cases h2
        · rw [if_neg hstk] at h2
          cases h2
      · exact ih _ (by omega) it htail htod hlast

theorem itemsFrom_length (isStack : Nat → Bool) (bas : Nat → Nat) :
    ∀ (ps : List (Nat × DataArrow)) (cnt : Nat → Nat),
      (itemsFrom isStack bas cnt ps).length = ps.length := by
  intro ps
  induction ps with
  | nil => intro cnt; rfl
  | cons p ps ih =>
    intro cnt
    by_cases hb : p.2.flag = OutputDataFlag.batch
    · simp only [itemsFrom, if_pos hb, List.length_cons, ih]
    · simp only [itemsFrom, if_neg hb, List.length_cons, ih]

/-- **C10**: after a successful `InitOutputData` (the per-destination
`batch_output_data_arrows_` sizes matching the actual batch-arrow counts, and
no batch arrow targeting a stack actor), one envelope is cached per arrow,
and for every destination with at least one batch arrow: exactly one of its
envelopes carries the `LastBatch` flag; the number of its `Batch`/`LastBatch`
envelopes equals its number of batch arrows (so all batch envelopes other
than the `LastBatch` one carry the plain `Batch` flag); the `LastBatch`
envelope is the one built for the last batch arrow to that destination in
output-arrow order; and the per-destination batch list holds exactly the
batch envelopes of that destination, in arrow order. -/
theorem C10_init_output_data (isStack : Nat → Bool) (bas : Nat → Nat)
    (arrows : List DataArrow)
    (hbas : ∀ d, bas d = countBatchTo d arrows.enum)
    (hns : ∀ a ∈ arrows, a.flag = OutputDataFlag.batch → isStack a.to_op_id = false) :
    ∃ acc, initOutputData isStack bas arrows = .ok acc ∧
      acc.output_data.length = arrows.length ∧
      ∀ d, 0 < countBatchTo d arrows.enum →
        (List.countP (fun it => decide (it.to_op_id = d ∧
            it.flag = OutputDataFlag.lastBatch)) acc.output_data = 1 ∧
         List.countP (fun it => decide (it.to_op_id = d ∧
            (it.flag = OutputDataFlag.batch ∨ it.flag = OutputDataFlag.lastBatch)))
            acc.output_data = countBatchTo d arrows.enum ∧
         (∀ it ∈ acc.output_data, it.to_op_id = d →
            it.flag = OutputDataFlag.lastBatch →
            (batchIdxsTo d arrows.enum).getLast? = some it.arrow_idx) ∧
         acc.batch_output_data d = batchIdxsTo d arrows.enum) := by
  have hns2 : ∀ p ∈ arrows.enum, p.2.flag = OutputDataFlag.batch →
      isStack p.2.to_op_id = false := by
    rw [List.forall_mem_enum]
    intro i hi
    exact hns arrows[i] (List.getElem_mem hi)
  obtain ⟨acc, hloop, hcnt, hbmap, hout⟩ :=
    initLoop_ok isStack bas arrows.enum ⟨fun _ => 0, fun _ => [], []⟩ hns2
  have houtx : acc.output_data = itemsFrom isStack bas (fun _ => 0) arrows.enum := by
    rw [hout]
    dsimp only
    rw [List.nil_append]
  refine ⟨acc, hloop, ?_, ?_⟩
  · rw [houtx, itemsFrom_length, List.enum_length]
  · intro d hd
    have hinv : (fun _ : Nat => (0 : Nat)) d + countBatchTo d arrows.enum = bas d := by
      show 0 + _ = _
      rw [hbas d]
      omega
    refine ⟨?_, ?_, ?_, ?_⟩
    · rw [houtx, itemsFrom_lastBatch_count isStack bas d arrows.enum _ hinv,
        if_neg (by omega)]
    · rw [houtx, itemsFrom_batchish_count isStack bas d arrows.enum]
    · intro it hit htod hlast
      rw [houtx] at hit
      exact itemsFrom_lastBatch_idx isStack bas d arrows.enum _ hinv it hit htod hlast
    · rw [hbmap d]
      dsimp only
      rw [List.nil_append]

/-- Witness for C10 on `c10Arrows` (two batch arrows to destination 5 around
an ordinary arrow to destination 6). -/
theorem C10_init_output_data_witness :
    ∃ acc, initOutputData (fun _ => false)
        (fun d => countBatchTo d c10Arrows.enum) c10Arrows = .ok acc ∧
      acc.output_data.length = c10Arrows.length ∧
      ∀ d, 0 < countBatchTo d c10Arrows.enum →
        (List.countP (fun it => decide (it.to_op_id = d ∧
            it.flag = OutputDataFlag.lastBatch)) acc.output_data = 1 ∧
         List.countP (fun it => decide (it.to_op_id = d ∧
            (it.flag = OutputDataFlag.batch ∨ it.flag = OutputDataFlag.lastBatch)))
            acc.output_data = countBatchTo d c10Arrows.enum ∧
         (∀ it ∈ acc.output_data, it.to_op_id = d →
            it.flag = OutputDataFlag.lastBatch →
            (batchIdxsTo d c10Arrows.enum).getLast? = some it.arrow_idx) ∧
         acc.batch_output_data d = batchIdxsTo d c10Arrows.enum) :=
  C10_init_output_data (fun _ => false) (fun d => countBatchTo d c10Arrows.enum)
    c10Arrows (fun d => rfl) (by decide)
